import Mathlib

/-!
MS5611 barometer driver: embedding of `ms5611.cpp` and checked properties.

Machine integers are modelled as `Int`/`Nat` with explicit wrap-around at the
width of the C type in which an expression is evaluated or stored.
-/

set_option linter.dupNamespace false

namespace MS5611

/-! ## Machine integers -/

/-- Value of an exact integer after conversion to `int32_t` (two's complement). -/
def int32_t (x : Int) : Int := (x + 2147483648) % 4294967296 - 2147483648

/-- Value of an exact integer after conversion to `int64_t` (two's complement). -/
def int64_t (x : Int) : Int :=
  (x + 9223372036854775808) % 18446744073709551616 - 9223372036854775808

/-- Value of a natural number after conversion to `uint8_t`. -/
def uint8_t (x : Nat) : Nat := x % 256

/-- Value of a natural number after conversion to `uint16_t`. -/
def uint16_t (x : Nat) : Nat := x % 65536

/-- Value of a natural number after conversion to `uint32_t`. -/
def uint32_t (x : Nat) : Nat := x % 4294967296

/-- The C expression `(a << n)` evaluated in `int` (32 bits). -/
def int_shl (a : Int) (n : Nat) : Int := int32_t (a * 2 ^ n)

/-! ## The session object -/

/-- Data members of `class MS5611` that the modelled code reads or writes:
the descriptor `_fd` and the calibration words `_c[0..7]` (indices above 7 are
never accessed). -/
structure Session where
  _fd : Int
  _c : Nat → Nat

/-! ## `MS5611::get_pressure` -/

/-- Local `dT` of `get_pressure`: `int32_t dT = d2 - c5 * 256;` with `c5` an
`int64_t`. -/
def get_pressure_dT (m : Session) (temp_adc : Nat) : Int :=
  let d2 : Int := temp_adc
  let c5 : Int := int64_t (m._c 5)
  int32_t (int64_t (d2 - int64_t (c5 * 256)))

/-- Local `temp` of `get_pressure`:
`int32_t temp = 2000 + dT * c6 / (1 << 23);` with `c6` an `int64_t`. -/
def get_pressure_temp (m : Session) (temp_adc : Nat) : Int :=
  let c6 : Int := int64_t (m._c 6)
  let dT := get_pressure_dT m temp_adc
  int32_t (int64_t (2000 + (int64_t (dT * c6)).tdiv (int_shl 1 23)))

/-- The block of second-order adjustments of `get_pressure`, returning the
locals `(t2, off2, sens2)`.  `dT` and `t_lo` are `int32_t`, so `dT * dT`,
`1 << 31`, `5 * t_lo * t_lo`, `7 * t_lo * t_lo` and `11 * t_lo * t_lo` are
evaluated in 32-bit `int`; `t2`, `off2`, `sens2` are `int64_t`. -/
def get_pressure_second_order (dT temp : Int) : Int × Int × Int :=
  let t_lo := int32_t (temp - 2000)
  if t_lo < 0 then
    let t2 := int64_t ((int32_t (dT * dT)).tdiv (int_shl 1 31))
    let off2 := int64_t ((int32_t (int32_t (5 * t_lo) * t_lo)).tdiv 2)
    let sens2 := int64_t (off2.tdiv 2)
    let t_lo := int32_t (temp - (-1500))
    if t_lo < 0 then
      let off2 := int64_t (off2 + int32_t (int32_t (7 * t_lo) * t_lo))
      let sens2 := int64_t (sens2 + (int32_t (int32_t (11 * t_lo) * t_lo)).tdiv 2)
      (t2, off2, sens2)
    else
      (t2, off2, sens2)
  else
    (0, 0, 0)

/-- Local `off` of `get_pressure`:
`int64_t off = c2 * (1 << 16) + (c4 * dT) / (1 << 7) - off2;`. -/
def get_pressure_off (m : Session) (dT off2 : Int) : Int :=
  let c2 : Int := int64_t (m._c 2)
  let c4 : Int := int64_t (m._c 4)
  int64_t (int64_t (int64_t (c2 * int_shl 1 16)
    + (int64_t (c4 * dT)).tdiv (int_shl 1 7)) - off2)

/-- Local `sens` of `get_pressure`:
`int64_t sens = c1 * (1 << 15) + (c3 * dT) / (1 << 8) - sens2;`. -/
def get_pressure_sens (m : Session) (dT sens2 : Int) : Int :=
  let c1 : Int := int64_t (m._c 1)
  let c3 : Int := int64_t (m._c 3)
  int64_t (int64_t (int64_t (c1 * int_shl 1 15)
    + (int64_t (c3 * dT)).tdiv (int_shl 1 8)) - sens2)

/-- The expression stored into `pres_x100`:
`(d1 * sens / (1 << 21) - off) / (1 << 15)` with `d1` a `uint32_t` promoted to
`int64_t`. -/
def get_pressure_pres (pres_adc : Nat) (off sens : Int) : Int :=
  let d1 : Int := pres_adc
  int32_t ((int64_t ((int64_t (d1 * sens)).tdiv (int_shl 1 21) - off)).tdiv
    (int_shl 1 15))

/-- `MS5611::get_pressure`.  `none` is the `return false` path (the two output
references are left untouched); `some (temp_x100, pres_x100)` is the
`return true` path with the two values stored.  The function reads `_c` only:
there is no test of `_fd` or of the CRC in it.  The `assert`s at its head
(`_c[1..6] < (1 << 16)`, `d1`, `d2 < (1 << 24)`) are the hypothesis `InRange`
of the theorems below. -/
def get_pressure (m : Session) (temp_adc pres_adc : Nat) : Option (Int × Int) :=
  let dT := get_pressure_dT m temp_adc
  let temp := get_pressure_temp m temp_adc
  if temp < -4000 ∨ temp > 8500 then
    none
  else
    let t2 := (get_pressure_second_order dT temp).1
    let off2 := (get_pressure_second_order dT temp).2.1
    let sens2 := (get_pressure_second_order dT temp).2.2
    let temp_x100 := int32_t (int64_t (temp - t2))
    let off := get_pressure_off m dT off2
    let sens := get_pressure_sens m dT sens2
    let pres_x100 := get_pressure_pres pres_adc off sens
    some (temp_x100, pres_x100)

/-- The calibration words of the datasheet's worked example. -/
def datasheet_cal : Nat → Nat := fun i =>
  [0, 40127, 36924, 23317, 23282, 33464, 28312, 0].getD i 0

/-! ## The SPI bus as seen by the driver -/

/-- The fields of `struct spi_ioc_transfer` that the driver fills in (all others
stay zero after `memset`).  `tx_buf` holds the bytes to send when a transmit
buffer is attached, `rx_buf` tells whether a receive buffer is attached.
In `linux/spi/spidev.h` the field `delay_usecs` is a `__u16`. -/
structure spi_ioc_transfer where
  tx_buf : Option (List Nat) := none
  rx_buf : Bool := false
  len : Nat := 0
  delay_usecs : Nat := 0
  cs_change : Bool := false
deriving DecidableEq, Repr

/-- What one `ioctl(_fd, SPI_IOC_MESSAGE(n), spi_cmd)` call gives back: its
return value and the bytes clocked into the receive buffers, in order. -/
structure ioctl_reply where
  ret : Int
  rx : List Nat

/-- Result of an operation that talks to the bus: the returned flag, the value
of the output reference after the call (unchanged when nothing was stored) and
the messages handed to `ioctl`, in order. -/
structure bus_result where
  ret : Bool
  data : Nat
  bus : List (List spi_ioc_transfer)

/-- The byte that ends up in `rx_data[i]` (a `uint8_t`) after a successful
transfer. -/
def rx_byte (io : ioctl_reply) (i : Nat) : Nat := uint8_t (io.rx.getD i 0)

/-! ## `MS5611::_reset`, `_read_cal_word`, `_read_cal` -/

/-- `MS5611::_reset`. -/
def _reset (m : Session) (io : ioctl_reply) : bus_result :=
  if m._fd < 0 then
    ⟨false, 0, []⟩
  else
    let spi_cmd : List spi_ioc_transfer :=
      [{ tx_buf := some [0x1e], len := 1 },
       { rx_buf := true, len := 1, delay_usecs := uint16_t 3000 },
       { rx_buf := true, len := 1 }]
    if io.ret < 0 then
      ⟨false, 0, [spi_cmd]⟩
    else
      let rx_data_0 := rx_byte io 0
      let rx_data_1 := rx_byte io 1
      if rx_data_0 ≠ 0 ∨ rx_data_1 ≠ 0xff then
        ⟨false, 0, [spi_cmd]⟩
      else
        ⟨true, 0, [spi_cmd]⟩

/-- `MS5611::_read_cal_word`; `data` is the value of the output reference
before the call. -/
def _read_cal_word (m : Session) (n : Int) (data : Nat) (io : ioctl_reply) : bus_result :=
  if m._fd < 0 then
    ⟨false, data, []⟩
  else if n ≥ 8 then
    ⟨false, data, []⟩
  else
    let cmd : Nat := ((0xa0 + n * 2) % 256).toNat
    let spi_cmd : List spi_ioc_transfer :=
      [{ tx_buf := some [cmd], len := 1 },
       { rx_buf := true, len := 2 }]
    if io.ret < 0 then
      ⟨false, data, [spi_cmd]⟩
    else
      ⟨true, uint16_t ((uint16_t (rx_byte io 0) <<< 8) ||| uint16_t (rx_byte io 1)),
        [spi_cmd]⟩

/-- The loop of `MS5611::_read_cal` from word `n` on, with `k` words left;
`io n` is the reply to the request for word `n`. -/
def _read_cal_loop (io : Nat → ioctl_reply) :
    Nat → Nat → Session → List (List spi_ioc_transfer) →
      Bool × Session × List (List spi_ioc_transfer)
  | 0, _, m, b => (true, m, b)
  | k + 1, n, m, b =>
    let r := _read_cal_word m n (m._c n) (io n)
    if r.ret = false then
      (false, m, b ++ r.bus)
    else
      _read_cal_loop io k (n + 1) { m with _c := Function.update m._c n r.data }
        (b ++ r.bus)

/-- `MS5611::_read_cal`: `for (int n = 0; n < 8; n++)`. -/
def _read_cal (m : Session) (io : Nat → ioctl_reply) :
    Bool × Session × List (List spi_ioc_transfer) :=
  _read_cal_loop io 8 0 m []

/-! ## `MS5611::_crc4` -/

/-- One pass of the inner `bit` loop of `_crc4` on the `uint16_t rem`. -/
def _crc4_bit (rem : Nat) : Nat :=
  if rem &&& 0x8000 ≠ 0 then
    uint16_t ((rem <<< 1) ^^^ 0x3000)
  else
    uint16_t (rem <<< 1)

/-- One pass of the outer `byte` loop of `_crc4`. -/
def _crc4_byte (c : Nat → Nat) (rem : Nat) (byte : Nat) : Nat :=
  let rem :=
    if byte % 2 = 1 then
      uint16_t (rem ^^^ (c (byte >>> 1) &&& 0x00ff))
    else
      uint16_t (rem ^^^ (c (byte >>> 1) >>> 8))
  Nat.iterate _crc4_bit 8 rem

/-- `MS5611::_crc4`: the returned `uint8_t` and the session after the call
(`_c[7]` is masked with `0xff00` for the computation and restored). -/
def _crc4 (m : Session) : Nat × Session :=
  let rem : Nat := 0
  let c7_save := m._c 7
  let m1 : Session := { m with _c := Function.update m._c 7 (uint16_t (m._c 7 &&& 0xff00)) }
  let rem := (List.range 16).foldl (_crc4_byte m1._c) rem
  let m2 : Session := { m1 with _c := Function.update m1._c 7 c7_save }
  (uint8_t (rem >>> 12), m2)

/-! ## `MS5611::_start_convert`, `read_adc`, `_do_convert` -/

/-- The command test shared by `_start_convert` and `_do_convert`:
`(cmd & 0xe1) != 0x40 || (cmd & 0x0e) > 0x08`. -/
def cmd_invalid (cmd : Nat) : Bool :=
  (cmd &&& 0xe1) != 0x40 || decide ((cmd &&& 0x0e) > 0x08)

/-- `MS5611::_start_convert`. -/
def _start_convert (m : Session) (cmd : Nat) (io : ioctl_reply) : bus_result :=
  if m._fd < 0 then
    ⟨false, 0, []⟩
  else if cmd_invalid cmd then
    ⟨false, 0, []⟩
  else
    let spi_cmd : List spi_ioc_transfer := [{ tx_buf := some [cmd], len := 1 }]
    if io.ret < 0 then
      ⟨false, 0, [spi_cmd]⟩
    else
      ⟨true, 0, [spi_cmd]⟩

/-- `MS5611::read_adc`; `data` is the value of the output reference before the
call. -/
def read_adc (m : Session) (data : Nat) (io : ioctl_reply) : bus_result :=
  if m._fd < 0 then
    ⟨false, data, []⟩
  else
    let spi_cmd : List spi_ioc_transfer :=
      [{ tx_buf := some [0x00], len := 1 },
       { rx_buf := true, len := 3 }]
    if io.ret < 0 then
      ⟨false, data, [spi_cmd]⟩
    else
      ⟨true, uint32_t (uint32_t (rx_byte io 0) <<< 16) |||
          uint32_t (uint32_t (rx_byte io 1) <<< 8) ||| uint32_t (rx_byte io 2),
        [spi_cmd]⟩

/-- The local `usec_delay` of `_do_convert`:
`osr_code = (cmd >> 1) & 0x07; usec_delay = 600 << osr_code;`. -/
def _do_convert_usec_delay (cmd : Nat) : Nat :=
  let osr_code := (cmd >>> 1) &&& 0x07
  uint32_t (600 <<< osr_code)

/-- `MS5611::_do_convert`; `data` is the value of the output reference before
the call. -/
def _do_convert (m : Session) (cmd : Nat) (data : Nat) (io : ioctl_reply) : bus_result :=
  if m._fd < 0 then
    ⟨false, data, []⟩
  else if cmd_invalid cmd then
    ⟨false, data, []⟩
  else
    let usec_delay := _do_convert_usec_delay cmd
    let spi_cmd : List spi_ioc_transfer :=
      [{ tx_buf := some [cmd], len := 1, delay_usecs := uint16_t usec_delay,
         cs_change := true },
       { tx_buf := some [0x00], len := 1 },
       { rx_buf := true, len := 3 }]
    if io.ret < 0 then
      ⟨false, data, [spi_cmd]⟩
    else
      ⟨true, uint32_t (uint32_t (rx_byte io 0) <<< 16) |||
          uint32_t (uint32_t (rx_byte io 1) <<< 8) ||| uint32_t (rx_byte io 2),
        [spi_cmd]⟩

/-! ## Constructor and destructor -/

/-- What the operating system answers during construction: the return value of
`open`, of the six configuration `ioctl`s (index 0..5, in source order), and the
replies to the reset message and to the request for each calibration word. -/
structure Transport where
  open_ret : Int
  cfg : Nat → Int
  reset : ioctl_reply
  cal : Nat → ioctl_reply

/-- `MS5611::MS5611`; `c0` is the (indeterminate) initial content of `_c`. -/
def MS5611 (c0 : Nat → Nat) (spi_clk : Nat) (t : Transport) : Session :=
  let m : Session := ⟨-1, c0⟩
  if spi_clk = 0 ∨ spi_clk > 20000000 then
    m
  else
    let m : Session := { m with _fd := t.open_ret }
    if m._fd < 0 then
      m
    else if t.cfg 0 < 0 ∨ t.cfg 1 < 0 ∨ t.cfg 2 < 0 ∨ t.cfg 3 < 0 ∨ t.cfg 4 < 0 ∨
        t.cfg 5 < 0 then
      { m with _fd := -1 }
    else if (_reset m t.reset).ret = false then
      { m with _fd := -1 }
    else
      let r := _read_cal m t.cal
      if r.1 = false then
        { r.2.1 with _fd := -1 }
      else
        let m := r.2.1
        let crc := _crc4 m
        if (m._c 7 &&& 0x000f) ≠ crc.1 then
          { crc.2 with _fd := -1 }
        else
          crc.2

/-- `MS5611::~MS5611`. -/
def destroy (m : Session) : Session :=
  if m._fd < 0 then m else { m with _fd := -1 }

/-- The readiness condition every bus operation tests (the negation of
`_fd < 0`). -/
def ready (m : Session) : Prop := 0 ≤ m._fd

instance (m : Session) : Decidable (ready m) := by unfold ready; infer_instance

/-- A call made on a constructed object, with the replies of the bus to it.
`set_c` is the write access to `_c[n]` that the test class has. -/
inductive Call where
  | reset (io : ioctl_reply)
  | read_cal (io : Nat → ioctl_reply)
  | crc4
  | start_convert (cmd : Nat) (io : ioctl_reply)
  | read_adc (io : ioctl_reply)
  | do_convert (cmd : Nat) (io : ioctl_reply)
  | get_pressure (temp_adc pres_adc : Nat)
  | dump_prom
  | set_c (n : Nat) (v : Nat)
  | destroy

/-- The session after one call. -/
def Call.run (m : Session) : Call → Session
  | .reset _ => m
  | .read_cal io => (_read_cal m io).2.1
  | .crc4 => (_crc4 m).2
  | .start_convert _ _ => m
  | .read_adc _ => m
  | .do_convert _ _ => m
  | .get_pressure _ _ => m
  | .dump_prom => m
  | .set_c n v => { m with _c := Function.update m._c n (uint16_t v) }
  | .destroy => MS5611.destroy m

/-- The ten conversion commands of the datasheet. -/
def convert_cmds : List Nat := [0x40, 0x42, 0x44, 0x46, 0x48, 0x50, 0x52, 0x54, 0x56, 0x58]

/-- The word assembled from the reply to the request for a calibration word. -/
def cal_word (io : ioctl_reply) : Nat :=
  uint16_t ((uint16_t (rx_byte io 0) <<< 8) ||| uint16_t (rx_byte io 1))

/-- The calibration words after all eight reads succeeded. -/
def loaded_cal (c0 : Nat → Nat) (t : Transport) : Nat → Nat :=
  fun n => if n < 8 then cal_word (t.cal n) else c0 n

/-- The calibration set `c` with bit `b` of word `w` flipped. -/
def flip_bit (c : Nat → Nat) (w b : Nat) : Nat → Nat :=
  Function.update c w (c w ^^^ (1 <<< b))

/-- The calibration set whose only set bit is bit `b` of word `w`. -/
def bit_error (w b : Nat) : Nat → Nat := fun i => if i = w then 1 <<< b else 0

/-- The value by which `_crc4` changes when bit `b` of word `w` is flipped:
the loop of `_crc4` run on `bit_error w b`. -/
def syndrome (w b : Nat) : Nat :=
  uint8_t (((List.range 16).foldl (_crc4_byte (bit_error w b)) 0) >>> 12)

/-- A calibration set (the AN520 example words) whose CRC nibble is valid. -/
def an520_cal : Nat → Nat := fun i =>
  [0x3132, 0x3334, 0x3536, 0x3738, 0x3940, 0x4142, 0x4344, 0x450B].getD i 0

/-- Every step of the construction succeeded: the clock rate is in
`(0, 20000000]`, the device opened, the six configuration calls succeeded, the
reset exchange succeeded and read `0x00` then `0xFF`, the eight calibration
reads succeeded, and the CRC of the loaded words equals word 7's low nibble. -/
def construction_ok (c0 : Nat → Nat) (spi_clk : Nat) (t : Transport) : Prop :=
  (0 < spi_clk ∧ spi_clk ≤ 20000000) ∧ 0 ≤ t.open_ret ∧ (∀ i, i < 6 → 0 ≤ t.cfg i) ∧
    (0 ≤ t.reset.ret ∧ rx_byte t.reset 0 = 0x00 ∧ rx_byte t.reset 1 = 0xff) ∧
    (∀ n, n < 8 → 0 ≤ (t.cal n).ret) ∧
    (_crc4 ⟨t.open_ret, loaded_cal c0 t⟩).1 = (loaded_cal c0 t 7 &&& 0xF)

/-- A transport on which every call succeeds and that delivers the words
`c 0 .. c 7` (high byte first); the descriptor returned by `open` is 3. -/
def transport_of (c : Nat → Nat) : Transport :=
  { open_ret := 3
    cfg := fun _ => 0
    reset := ⟨0, [0x00, 0xff]⟩
    cal := fun n => ⟨0, [c n >>> 8, c n &&& 0xff]⟩ }

/-- The datasheet calibration with a CRC nibble that does not match. -/
def bad_crc_cal : Nat → Nat := fun i =>
  [0, 40127, 36924, 23317, 23282, 33464, 28312, 1].getD i 0

/-! ## `ms5611.h`: oversampling levels and the public conversion calls -/

/-- `enum MS5611::Osr`. -/
inductive Osr where
  | OSR256
  | OSR512
  | OSR1024
  | OSR2048
  | OSR4096
deriving DecidableEq, Repr

/-- The enumerator values of `Osr`: 0, 2, 4, 6, 8. -/
def Osr.val : Osr → Nat
  | .OSR256 => 0
  | .OSR512 => 2
  | .OSR1024 => 4
  | .OSR2048 => 6
  | .OSR4096 => 8

/-- Position of an oversampling level in the order of the enumeration. -/
def Osr.index : Osr → Nat
  | .OSR256 => 0
  | .OSR512 => 1
  | .OSR1024 => 2
  | .OSR2048 => 3
  | .OSR4096 => 4

/-- The five oversampling levels, lowest first. -/
def Osr.all : List Osr := [.OSR256, .OSR512, .OSR1024, .OSR2048, .OSR4096]

/-- `enum Convert { TEMP = 0x40, ... }`. -/
def TEMP : Nat := 0x40

/-- `enum Convert { ..., PRES = 0x50 }`. -/
def PRES : Nat := 0x50

/-- `MS5611::do_convert_temp`: `_do_convert(TEMP | oversamp, temp)`. -/
def do_convert_temp (m : Session) (temp : Nat) (oversamp : Osr) (io : ioctl_reply) :
    bus_result :=
  _do_convert m (uint8_t (TEMP ||| oversamp.val)) temp io

/-- `MS5611::do_convert_pres`: `_do_convert(PRES | oversamp, pres)`. -/
def do_convert_pres (m : Session) (pres : Nat) (oversamp : Osr) (io : ioctl_reply) :
    bus_result :=
  _do_convert m (uint8_t (PRES ||| oversamp.val)) pres io

/-- The three-transfer message that `_do_convert` hands to `ioctl` for command
`cmd` when the trigger byte is followed by a delay of `usec` microseconds. -/
def convert_message (cmd usec : Nat) : List spi_ioc_transfer :=
  [{ tx_buf := some [cmd], len := 1, delay_usecs := usec, cs_change := true },
   { tx_buf := some [0x00], len := 1 },
   { rx_buf := true, len := 3 }]

/-! ## The manufacturer CRC-4 as the specification words it -/

/-- One left shift of the 16-bit register: the bit shifted out is bit 15, and
`0x3000` is XOR-ed in whenever that bit is 1. -/
def spec_crc4_shift (r : Nat) : Nat :=
  if r / 32768 % 2 = 1 then (2 * r % 65536) ^^^ 0x3000 else 2 * r % 65536

/-- The sixteen bytes of eight words: each word's high byte, then its low byte. -/
def spec_crc4_bytes (c : Nat → Nat) : List Nat :=
  (List.range 8).flatMap fun i => [c i / 256, c i % 256]

/-- A byte is XOR-ed into the register, followed by eight left shifts. -/
def spec_crc4_step (r x : Nat) : Nat := Nat.iterate spec_crc4_shift 8 (r ^^^ x)

/-- The CRC-4 of eight 16-bit words: the register starts at 0, takes the
sixteen bytes in order, and the result is the top nibble of the final register. -/
def spec_crc4 (c : Nat → Nat) : Nat :=
  ((spec_crc4_bytes c).foldl spec_crc4_step 0) / 4096

/-- A calibration set in which only bit 4 of word 7 is set. -/
def bit4_cal : Nat → Nat := fun i => if i = 7 then 0x0010 else 0

/-- The calls that store into `_c`: `_read_cal` (private) and the write access
of the test class.  No public member function does. -/
def Call.writes_cal : Call → Bool
  | .read_cal _ => true
  | .set_c _ _ => true
  | _ => false

/-- A conversion through the public interface: trigger, read, compensate. -/
def sample_calls : List Call :=
  [.start_convert 0x58 ⟨0, []⟩, .read_adc ⟨0, [1, 2, 3]⟩, .get_pressure 8569150 9085466]

/-! ## Exact-integer reference formulas (as the specification words them) -/

/-- `dT = raw_temp − cal[5] * 256` over the integers. -/
def spec_dT (c : Nat → Nat) (raw_temp : Nat) : Int := (raw_temp : Int) - 256 * (c 5 : Int)

/-- `TEMP = 2000 + dT * cal[6] / 2^23`, truncating division. -/
def spec_TEMP (c : Nat → Nat) (raw_temp : Nat) : Int :=
  2000 + (spec_dT c raw_temp * (c 6 : Int)).tdiv (2 ^ 23)

/-- `T2 = dT² / 2^31` below 20 °C, else `0`. -/
def spec_T2 (c : Nat → Nat) (raw_temp : Nat) : Int :=
  if spec_TEMP c raw_temp < 2000 then
    (spec_dT c raw_temp * spec_dT c raw_temp).tdiv (2 ^ 31)
  else 0

/-- `OFF2`: zero from 20 °C up, `5·(TEMP−2000)²/2` below, plus `7·(TEMP+1500)²`
below −15 °C. -/
def spec_OFF2 (TEMP : Int) : Int :=
  if TEMP ≥ 2000 then 0
  else if TEMP < -1500 then
    (5 * (TEMP - 2000) ^ 2).tdiv 2 + 7 * (TEMP + 1500) ^ 2
  else (5 * (TEMP - 2000) ^ 2).tdiv 2

/-- `SENS2`: zero from 20 °C up, `OFF2/2` below (of the `OFF2` before its
extra term), plus `11·(TEMP+1500)²/2` below −15 °C. -/
def spec_SENS2 (TEMP : Int) : Int :=
  if TEMP ≥ 2000 then 0
  else if TEMP < -1500 then
    ((5 * (TEMP - 2000) ^ 2).tdiv 2).tdiv 2 + (11 * (TEMP + 1500) ^ 2).tdiv 2
  else ((5 * (TEMP - 2000) ^ 2).tdiv 2).tdiv 2

/-- `OFF = cal[2]*2^16 + cal[4]*dT/2^7 − OFF2`. -/
def spec_OFF (c : Nat → Nat) (raw_temp : Nat) (OFF2 : Int) : Int :=
  (c 2 : Int) * 2 ^ 16 + ((c 4 : Int) * spec_dT c raw_temp).tdiv (2 ^ 7) - OFF2

/-- `SENS = cal[1]*2^15 + cal[3]*dT/2^8 − SENS2`. -/
def spec_SENS (c : Nat → Nat) (raw_temp : Nat) (SENS2 : Int) : Int :=
  (c 1 : Int) * 2 ^ 15 + ((c 3 : Int) * spec_dT c raw_temp).tdiv (2 ^ 8) - SENS2

/-- `P = (raw_pres · SENS / 2^21 − OFF) / 2^15`. -/
def spec_P (raw_pres : Nat) (OFF SENS : Int) : Int :=
  ((((raw_pres : Int) * SENS).tdiv (2 ^ 21)) - OFF).tdiv (2 ^ 15)

/-- The precondition of the compensation claims: `c[1..6] < 2^16` and both
raw codes below `2^24`. -/
def InRange (m : Session) (raw_temp raw_pres : Nat) : Prop :=
  (∀ i, 1 ≤ i → i ≤ 6 → m._c i < 2 ^ 16) ∧ raw_temp < 2 ^ 24 ∧ raw_pres < 2 ^ 24

/-! ## Arithmetic helpers -/

theorem int32_t_eq {x : Int} (h1 : -2147483648 ≤ x) (h2 : x < 2147483648) :
    int32_t x = x := by
  unfold int32_t; omega

theorem int64_t_eq {x : Int} (h1 : -9223372036854775808 ≤ x)
    (h2 : x < 9223372036854775808) : int64_t x = x := by
  unfold int64_t; omega

theorem int_shl_one_7 : int_shl 1 7 = 2 ^ 7 := by decide
theorem int_shl_one_8 : int_shl 1 8 = 2 ^ 8 := by decide
theorem int_shl_one_15 : int_shl 1 15 = 2 ^ 15 := by decide
theorem int_shl_one_16 : int_shl 1 16 = 2 ^ 16 := by decide
theorem int_shl_one_21 : int_shl 1 21 = 2 ^ 21 := by decide
theorem int_shl_one_23 : int_shl 1 23 = 2 ^ 23 := by decide
theorem int_shl_one_31 : int_shl 1 31 = -2147483648 := by decide

theorem tdiv_of_nonneg {a b : Int} (ha : 0 ≤ a) (hb : 0 < b) : a.tdiv b = a / b :=
  Int.tdiv_eq_ediv ha (le_of_lt hb)

theorem tdiv_of_neg {a b : Int} (ha : a < 0) (hb : 0 < b) : a.tdiv b = -((-a) / b) := by
  have h : (-a).tdiv b = (-a) / b := Int.tdiv_eq_ediv (by omega) (le_of_lt hb)
  rw [← h, Int.neg_tdiv, neg_neg]

/-- Truncating division by a positive number stays within the bound of the
dividend, scaled. -/
theorem tdiv_bound {a b M : Int} (hb : 0 < b) (h1 : -M ≤ a) (h2 : a ≤ M) :
    -(M / b) ≤ a.tdiv b ∧ a.tdiv b ≤ M / b := by
  rcases le_or_lt 0 a with ha | ha
  · rw [tdiv_of_nonneg ha hb]
    have h3 : a / b ≤ M / b := Int.ediv_le_ediv hb h2
    have h4 : 0 ≤ a / b := Int.ediv_nonneg ha (le_of_lt hb)
    omega
  · rw [tdiv_of_neg ha hb]
    have h3 : (-a) / b ≤ M / b := Int.ediv_le_ediv hb (by omega)
    have h4 : 0 ≤ (-a) / b := Int.ediv_nonneg (by omega) (le_of_lt hb)
    omega

theorem tdiv_bound_lit {a b M L : Int} (hb : 0 < b) (h1 : -M ≤ a) (h2 : a ≤ M)
    (hL : M / b ≤ L) : -L ≤ a.tdiv b ∧ a.tdiv b ≤ L := by
  have h := tdiv_bound hb h1 h2
  omega

theorem mul_bound {a b A B P : Int} (h1 : -A ≤ a) (h2 : a ≤ A) (h3 : 0 ≤ b) (h4 : b ≤ B)
    (hP : A * B ≤ P) : -P ≤ a * b ∧ a * b ≤ P := by
  constructor <;> nlinarith

/-! ## `get_pressure`: the machine computation against the exact formulas -/

theorem spec_dT_bounds {m : Session} {raw_temp raw_pres : Nat}
    (h : InRange m raw_temp raw_pres) :
    -16777215 ≤ spec_dT m._c raw_temp ∧ spec_dT m._c raw_temp ≤ 16777215 := by
  obtain ⟨hc, ht, _⟩ := h
  have h5 := hc 5 (by norm_num) (by norm_num)
  unfold spec_dT
  omega

theorem get_pressure_dT_eq {m : Session} {raw_temp raw_pres : Nat}
    (h : InRange m raw_temp raw_pres) :
    get_pressure_dT m raw_temp = spec_dT m._c raw_temp := by
  obtain ⟨hc, ht, _⟩ := h
  have h5 := hc 5 (by norm_num) (by norm_num)
  simp only [get_pressure_dT, spec_dT, int32_t, int64_t]
  omega

theorem spec_dT_mul_bounds {m : Session} {raw_temp raw_pres : Nat}
    (h : InRange m raw_temp raw_pres) (k : Nat) (hk1 : 1 ≤ k) (hk6 : k ≤ 6) :
    -1099494785025 ≤ spec_dT m._c raw_temp * (m._c k : Int) ∧
      spec_dT m._c raw_temp * (m._c k : Int) ≤ 1099494785025 := by
  have hd := spec_dT_bounds h
  have hk := h.1 k hk1 hk6
  exact mul_bound (B := 65535) hd.1 hd.2 (by omega) (by omega) (by norm_num)

theorem spec_TEMP_bounds {m : Session} {raw_temp raw_pres : Nat}
    (h : InRange m raw_temp raw_pres) :
    -129069 ≤ spec_TEMP m._c raw_temp ∧ spec_TEMP m._c raw_temp ≤ 133069 := by
  have hm := spec_dT_mul_bounds h 6 (by norm_num) (by norm_num)
  have ht := tdiv_bound_lit (b := 2 ^ 23) (L := 131069) (by norm_num) hm.1 hm.2 (by norm_num)
  unfold spec_TEMP
  omega

theorem get_pressure_temp_eq {m : Session} {raw_temp raw_pres : Nat}
    (h : InRange m raw_temp raw_pres) :
    get_pressure_temp m raw_temp = spec_TEMP m._c raw_temp := by
  have h6 := h.1 6 (by norm_num) (by norm_num)
  have hm := spec_dT_mul_bounds h 6 (by norm_num) (by norm_num)
  have ht := spec_TEMP_bounds h
  simp only [get_pressure_temp, get_pressure_dT_eq h, int_shl_one_23]
  rw [int64_t_eq (x := (m._c 6 : Int)) (by omega) (by omega),
    int64_t_eq (x := spec_dT m._c raw_temp * (m._c 6 : Int)) (by omega) (by omega)]
  unfold spec_TEMP at ht ⊢
  rw [int64_t_eq (by omega) (by omega), int32_t_eq (by omega) (by omega)]

theorem sq_bound {t L P : Int} (h1 : -L ≤ t) (h2 : t ≤ 0) (hP : L * L ≤ P) :
    0 ≤ t * t ∧ t * t ≤ P := by
  constructor <;> nlinarith

/-- The term `k * t_lo * t_lo` evaluated in 32-bit `int` is exact for
`-6000 ≤ t_lo ≤ 0` and `0 ≤ k ≤ 11`. -/
theorem int32_t_sq_term {k t : Int} (hk0 : 0 ≤ k) (hk : k ≤ 11) (h1 : -6000 ≤ t)
    (h2 : t ≤ 0) : int32_t (int32_t (k * t) * t) = k * (t * t) := by
  have hs := sq_bound (P := 36000000) h1 h2 (by norm_num)
  have hkt : -66000 ≤ k * t ∧ k * t ≤ 0 := by constructor <;> nlinarith
  have hktt : 0 ≤ k * (t * t) ∧ k * (t * t) ≤ 396000000 := by constructor <;> nlinarith
  rw [int32_t_eq (x := k * t) (by omega) (by omega), mul_assoc,
    int32_t_eq (x := k * (t * t)) (by omega) (by omega)]

theorem spec_OFF2_bounds {TEMP : Int} (h1 : -4000 ≤ TEMP) :
    0 ≤ spec_OFF2 TEMP ∧ spec_OFF2 TEMP ≤ 133750000 := by
  unfold spec_OFF2
  simp only [pow_two]
  by_cases hge : TEMP ≥ 2000
  · simp only [hge, if_true]; omega
  · have hs := sq_bound (t := TEMP - 2000) (L := 6000) (P := 36000000) (by omega) (by omega) (by norm_num)
    have ho := tdiv_bound_lit (a := 5 * ((TEMP - 2000) * (TEMP - 2000))) (b := 2)
      (M := 180000000) (L := 90000000) (by norm_num) (by omega) (by omega) (by norm_num)
    have ho0 : 0 ≤ (5 * ((TEMP - 2000) * (TEMP - 2000))).tdiv 2 :=
      Int.tdiv_nonneg (by omega) (by norm_num)
    by_cases hlt : TEMP < -1500
    · have hs2 := sq_bound (t := TEMP + 1500) (L := 2500) (P := 6250000) (by omega) (by omega)
        (by norm_num)
      simp only [hge, hlt, if_true, if_false]; omega
    · simp only [hge, hlt, if_false]; omega

theorem spec_SENS2_bounds {TEMP : Int} (h1 : -4000 ≤ TEMP) :
    0 ≤ spec_SENS2 TEMP ∧ spec_SENS2 TEMP ≤ 79375000 := by
  unfold spec_SENS2
  simp only [pow_two]
  by_cases hge : TEMP ≥ 2000
  · simp only [hge, if_true]; omega
  · have hs := sq_bound (t := TEMP - 2000) (L := 6000) (P := 36000000) (by omega) (by omega) (by norm_num)
    have ho := tdiv_bound_lit (a := 5 * ((TEMP - 2000) * (TEMP - 2000))) (b := 2)
      (M := 180000000) (L := 90000000) (by norm_num) (by omega) (by omega) (by norm_num)
    have ho0 : 0 ≤ (5 * ((TEMP - 2000) * (TEMP - 2000))).tdiv 2 :=
      Int.tdiv_nonneg (by omega) (by norm_num)
    have hq := tdiv_bound_lit (a := (5 * ((TEMP - 2000) * (TEMP - 2000))).tdiv 2) (b := 2)
      (M := 90000000) (L := 45000000) (by norm_num) (by omega) (by omega) (by norm_num)
    have hq0 : 0 ≤ ((5 * ((TEMP - 2000) * (TEMP - 2000))).tdiv 2).tdiv 2 :=
      Int.tdiv_nonneg ho0 (by norm_num)
    by_cases hlt : TEMP < -1500
    · have hs2 := sq_bound (t := TEMP + 1500) (L := 2500) (P := 6250000) (by omega) (by omega)
        (by norm_num)
      have hr := tdiv_bound_lit (a := 11 * ((TEMP + 1500) * (TEMP + 1500))) (b := 2)
        (M := 68750000) (L := 34375000) (by norm_num) (by omega) (by omega) (by norm_num)
      have hr0 : 0 ≤ (11 * ((TEMP + 1500) * (TEMP + 1500))).tdiv 2 :=
        Int.tdiv_nonneg (by omega) (by norm_num)
      simp only [hge, hlt, if_true, if_false]; omega
    · simp only [hge, hlt, if_false]; omega

/-- Inside the accepted temperature range the machine evaluation of `off2` and
`sens2` is exact, whatever `dT` is. -/
theorem get_pressure_second_order_eq (dT : Int) {temp : Int} (h1 : -4000 ≤ temp)
    (h2 : temp ≤ 8500) :
    (get_pressure_second_order dT temp).2.1 = spec_OFF2 temp ∧
      (get_pressure_second_order dT temp).2.2 = spec_SENS2 temp := by
  have hO := spec_OFF2_bounds h1
  have hS := spec_SENS2_bounds h1
  have e1 : int32_t (temp - 2000) = temp - 2000 := int32_t_eq (by omega) (by omega)
  have e2 : int32_t (temp - (-1500)) = temp + 1500 := by
    rw [int32_t_eq (by omega) (by omega)]; ring
  unfold get_pressure_second_order
  unfold spec_OFF2 spec_SENS2 at *
  simp only [e1, e2, pow_two] at *
  by_cases hge : temp ≥ 2000
  · have hlo : ¬ temp - 2000 < 0 := by omega
    simp only [hlo, hge, if_true, if_false, and_self]
  · have hlo : temp - 2000 < 0 := by omega
    have a1 := int32_t_sq_term (k := 5) (t := temp - 2000) (by norm_num) (by norm_num)
      (by omega) (by omega)
    have hs := sq_bound (t := temp - 2000) (L := 6000) (P := 36000000) (by omega) (by omega) (by norm_num)
    have ho := tdiv_bound_lit (a := 5 * ((temp - 2000) * (temp - 2000))) (b := 2)
      (M := 180000000) (L := 90000000) (by norm_num) (by omega) (by omega) (by norm_num)
    have hq := tdiv_bound_lit (a := (5 * ((temp - 2000) * (temp - 2000))).tdiv 2) (b := 2)
      (M := 90000000) (L := 45000000) (by norm_num) (by omega) (by omega) (by norm_num)
    have a2 : int64_t ((5 * ((temp - 2000) * (temp - 2000))).tdiv 2) =
        (5 * ((temp - 2000) * (temp - 2000))).tdiv 2 := int64_t_eq (by omega) (by omega)
    have a3 : int64_t (((5 * ((temp - 2000) * (temp - 2000))).tdiv 2).tdiv 2) =
        ((5 * ((temp - 2000) * (temp - 2000))).tdiv 2).tdiv 2 :=
      int64_t_eq (by omega) (by omega)
    by_cases hlt : temp < -1500
    · have hlt2 : temp + 1500 < 0 := by omega
      have b1 := int32_t_sq_term (k := 7) (t := temp + 1500) (by norm_num) (by norm_num)
        (by omega) (by omega)
      have b2 := int32_t_sq_term (k := 11) (t := temp + 1500) (by norm_num) (by norm_num)
        (by omega) (by omega)
      simp only [hge, hlt, if_true, if_false] at hO hS
      simp only [hlo, hge, hlt, hlt2, if_true, if_false, a1, a2, a3, b1, b2]
      rw [int64_t_eq (by omega) (by omega), int64_t_eq (by omega) (by omega)]
      exact ⟨rfl, rfl⟩
    · have hlt2 : ¬ temp + 1500 < 0 := by omega
      simp only [hlo, hge, hlt, hlt2, if_true, if_false, a1, a2, a3, and_self]

theorem spec_lin_bounds {m : Session} {raw_temp raw_pres : Nat}
    (h : InRange m raw_temp raw_pres) (k : Nat) (hk1 : 1 ≤ k) (hk6 : k ≤ 6) :
    (-8589803008 ≤ ((m._c k : Int) * spec_dT m._c raw_temp).tdiv (2 ^ 7) ∧
      ((m._c k : Int) * spec_dT m._c raw_temp).tdiv (2 ^ 7) ≤ 8589803008) ∧
    (-8589803008 ≤ ((m._c k : Int) * spec_dT m._c raw_temp).tdiv (2 ^ 8) ∧
      ((m._c k : Int) * spec_dT m._c raw_temp).tdiv (2 ^ 8) ≤ 8589803008) := by
  have hm := spec_dT_mul_bounds h k hk1 hk6
  rw [mul_comm] at hm
  exact ⟨tdiv_bound_lit (by norm_num) hm.1 hm.2 (by norm_num),
    tdiv_bound_lit (by norm_num) hm.1 hm.2 (by norm_num)⟩

theorem spec_OFF_bounds {m : Session} {raw_temp raw_pres : Nat}
    (h : InRange m raw_temp raw_pres) {off2 : Int} (h0 : 0 ≤ off2)
    (h1 : off2 ≤ 133750000) :
    -13018454768 ≤ spec_OFF m._c raw_temp off2 ∧
      spec_OFF m._c raw_temp off2 ≤ 13018454768 := by
  have h2 := h.1 2 (by norm_num) (by norm_num)
  have hl := (spec_lin_bounds h 4 (by norm_num) (by norm_num)).1
  unfold spec_OFF
  omega

theorem spec_SENS_bounds {m : Session} {raw_temp raw_pres : Nat}
    (h : InRange m raw_temp raw_pres) {sens2 : Int} (h0 : 0 ≤ sens2)
    (h1 : sens2 ≤ 79375000) :
    -10816628888 ≤ spec_SENS m._c raw_temp sens2 ∧
      spec_SENS m._c raw_temp sens2 ≤ 10816628888 := by
  have h2 := h.1 1 (by norm_num) (by norm_num)
  have hl := (spec_lin_bounds h 3 (by norm_num) (by norm_num)).2
  unfold spec_SENS
  omega

theorem get_pressure_off_eq {m : Session} {raw_temp raw_pres : Nat}
    (h : InRange m raw_temp raw_pres) {off2 : Int} (h0 : 0 ≤ off2)
    (h1 : off2 ≤ 133750000) :
    get_pressure_off m (spec_dT m._c raw_temp) off2 = spec_OFF m._c raw_temp off2 := by
  have h2 := h.1 2 (by norm_num) (by norm_num)
  have h4 := h.1 4 (by norm_num) (by norm_num)
  have hm := spec_dT_mul_bounds h 4 (by norm_num) (by norm_num)
  rw [mul_comm] at hm
  have hl := (spec_lin_bounds h 4 (by norm_num) (by norm_num)).1
  simp only [get_pressure_off, int_shl_one_16, int_shl_one_7]
  rw [int64_t_eq (x := (m._c 2 : Int)) (by omega) (by omega),
    int64_t_eq (x := (m._c 4 : Int)) (by omega) (by omega),
    int64_t_eq (x := (m._c 4 : Int) * spec_dT m._c raw_temp) (by omega) (by omega),
    int64_t_eq (x := (m._c 2 : Int) * 2 ^ 16) (by omega) (by omega),
    int64_t_eq (x := (m._c 2 : Int) * 2 ^ 16 +
      ((m._c 4 : Int) * spec_dT m._c raw_temp).tdiv (2 ^ 7)) (by omega) (by omega)]
  unfold spec_OFF
  exact int64_t_eq (by omega) (by omega)

theorem get_pressure_sens_eq {m : Session} {raw_temp raw_pres : Nat}
    (h : InRange m raw_temp raw_pres) {sens2 : Int} (h0 : 0 ≤ sens2)
    (h1 : sens2 ≤ 79375000) :
    get_pressure_sens m (spec_dT m._c raw_temp) sens2 = spec_SENS m._c raw_temp sens2 := by
  have h2 := h.1 1 (by norm_num) (by norm_num)
  have h4 := h.1 3 (by norm_num) (by norm_num)
  have hm := spec_dT_mul_bounds h 3 (by norm_num) (by norm_num)
  rw [mul_comm] at hm
  have hl := (spec_lin_bounds h 3 (by norm_num) (by norm_num)).2
  simp only [get_pressure_sens, int_shl_one_15, int_shl_one_8]
  rw [int64_t_eq (x := (m._c 1 : Int)) (by omega) (by omega),
    int64_t_eq (x := (m._c 3 : Int)) (by omega) (by omega),
    int64_t_eq (x := (m._c 3 : Int) * spec_dT m._c raw_temp) (by omega) (by omega),
    int64_t_eq (x := (m._c 1 : Int) * 2 ^ 15) (by omega) (by omega),
    int64_t_eq (x := (m._c 1 : Int) * 2 ^ 15 +
      ((m._c 3 : Int) * spec_dT m._c raw_temp).tdiv (2 ^ 8)) (by omega) (by omega)]
  unfold spec_SENS
  exact int64_t_eq (by omega) (by omega)

/-- The pressure expression is exact for `raw_pres < 2^24` and `OFF`, `SENS`
within the bounds they have on in-range inputs. -/
theorem get_pressure_pres_eq {raw_pres : Nat} (hp : raw_pres < 2 ^ 24) {OFF SENS : Int}
    (ho1 : -13018454768 ≤ OFF) (ho2 : OFF ≤ 13018454768)
    (hs1 : -10816628888 ≤ SENS) (hs2 : SENS ≤ 10816628888) :
    get_pressure_pres raw_pres OFF SENS = spec_P raw_pres OFF SENS := by
  have hm := mul_bound (a := SENS) (b := (raw_pres : Int)) (B := 16777215)
    (P := 181472908429186920) hs1 hs2 (by omega) (by omega) (by norm_num)
  rw [mul_comm] at hm
  have hq := tdiv_bound_lit (b := 2 ^ 21) (L := 86533025946) (by norm_num) hm.1 hm.2
    (by norm_num)
  have hr := tdiv_bound_lit (a := ((raw_pres : Int) * SENS).tdiv (2 ^ 21) - OFF)
    (b := 2 ^ 15) (M := 99551480714) (L := 3038070) (by norm_num) (by omega) (by omega)
    (by norm_num)
  simp only [get_pressure_pres, int_shl_one_21, int_shl_one_15]
  rw [int64_t_eq (x := (raw_pres : Int) * SENS) (by omega) (by omega),
    int64_t_eq (x := ((raw_pres : Int) * SENS).tdiv (2 ^ 21) - OFF) (by omega) (by omega)]
  unfold spec_P
  exact int32_t_eq (by omega) (by omega)

/-- On in-range inputs with `TEMP` inside `[-4000, 8500]` the call succeeds, the
pressure it stores is the exact `P`, and the temperature it stores is `temp`
less the machine value of `t2`. -/
theorem get_pressure_in_range {m : Session} {raw_temp raw_pres : Nat}
    (h : InRange m raw_temp raw_pres) (h1 : -4000 ≤ spec_TEMP m._c raw_temp)
    (h2 : spec_TEMP m._c raw_temp ≤ 8500) :
    get_pressure m raw_temp raw_pres =
      some (int32_t (int64_t (spec_TEMP m._c raw_temp -
          (get_pressure_second_order (spec_dT m._c raw_temp) (spec_TEMP m._c raw_temp)).1)),
        spec_P raw_pres (spec_OFF m._c raw_temp (spec_OFF2 (spec_TEMP m._c raw_temp)))
          (spec_SENS m._c raw_temp (spec_SENS2 (spec_TEMP m._c raw_temp)))) := by
  have hso := get_pressure_second_order_eq (spec_dT m._c raw_temp) h1 h2
  have hO := spec_OFF2_bounds h1
  have hS := spec_SENS2_bounds h1
  have hOFF := spec_OFF_bounds h hO.1 hO.2
  have hSENS := spec_SENS_bounds h hS.1 hS.2
  have hc : ¬ (spec_TEMP m._c raw_temp < -4000 ∨ spec_TEMP m._c raw_temp > 8500) := by
    omega
  simp only [get_pressure, get_pressure_dT_eq h, get_pressure_temp_eq h, hc, if_false,
    hso.1, hso.2, get_pressure_off_eq h hO.1 hO.2, get_pressure_sens_eq h hS.1 hS.2,
    get_pressure_pres_eq h.2.2 hOFF.1 hOFF.2 hSENS.1 hSENS.2]

theorem get_pressure_none_iff {m : Session} {raw_temp raw_pres : Nat}
    (h : InRange m raw_temp raw_pres) :
    get_pressure m raw_temp raw_pres = none ↔
      (spec_TEMP m._c raw_temp < -4000 ∨ spec_TEMP m._c raw_temp > 8500) := by
  constructor
  · intro hn
    by_contra hc
    rw [get_pressure_in_range h (by omega) (by omega)] at hn
    exact Option.noConfusion hn
  · intro hc
    simp only [get_pressure, get_pressure_temp_eq h, hc, if_true]

/-- A square is never congruent to `2^(2n+1)` modulo `2^(2n+2)`. -/
theorem sq_mod_ne (n : Nat) : ∀ d : Nat, d * d % 2 ^ (2 * n + 2) ≠ 2 ^ (2 * n + 1) := by
  induction n with
  | zero =>
    intro d h
    have h1 : d * d % 4 = (d % 4) * (d % 4) % 4 := Nat.mul_mod d d 4
    have h2 : d % 4 < 4 := Nat.mod_lt d (by norm_num)
    norm_num at h
    rw [h1] at h
    interval_cases (d % 4) <;> omega
  | succ n ih =>
    intro d h
    have e1 : 2 ^ (2 * (n + 1) + 2) = 4 * 2 ^ (2 * n + 2) := by ring
    have e2 : 2 ^ (2 * (n + 1) + 1) = 4 * 2 ^ (2 * n + 1) := by ring
    rw [e1, e2] at h
    rcases Nat.even_or_odd' d with ⟨e, rfl | rfl⟩
    · have e3 : 2 * e * (2 * e) = 4 * (e * e) := by ring
      rw [e3, Nat.mul_mod_mul_left] at h
      exact ih e (by omega)
    · have e3 : (2 * e + 1) * (2 * e + 1) = 4 * (e * e + e) + 1 := by ring
      rw [e3] at h
      have h2 : (4 * (e * e + e) + 1) % (4 * 2 ^ (2 * n + 2)) % 2
          = (4 * (e * e + e) + 1) % 2 :=
        Nat.mod_mod_of_dvd _ ⟨2 * 2 ^ (2 * n + 2), by ring⟩
      rw [h] at h2
      omega

/-- The expression `dT * dT / (1 << 31)` evaluated in 32-bit `int` is zero for
every `dT`: the divisor is `INT_MIN` and a wrapped square is never `INT_MIN`. -/
theorem int32_sq_tdiv_zero (d : Int) : (int32_t (d * d)).tdiv (int_shl 1 31) = 0 := by
  rw [int_shl_one_31]
  have hx : -2147483648 ≤ int32_t (d * d) ∧ int32_t (d * d) < 2147483648 := by
    unfold int32_t; omega
  have hne : int32_t (d * d) ≠ -2147483648 := by
    intro h
    unfold int32_t at h
    rw [← Int.natAbs_mul_self (a := d)] at h
    have h3 : (d.natAbs * d.natAbs) % 4294967296 = 2147483648 := by omega
    exact sq_mod_ne 15 d.natAbs (by norm_num; exact h3)
  rw [Int.tdiv_neg]
  rcases le_or_lt 0 (int32_t (d * d)) with hs | hs
  · rw [tdiv_of_nonneg hs (by norm_num)]; omega
  · rw [tdiv_of_neg hs (by norm_num)]; omega

/-- The machine value of `t2` is zero on every path. -/
theorem get_pressure_second_order_t2 (dT temp : Int) :
    (get_pressure_second_order dT temp).1 = 0 := by
  have hz : int64_t 0 = 0 := by decide
  unfold get_pressure_second_order
  simp only [int32_sq_tdiv_zero, hz]
  split_ifs <;> rfl

/-- On in-range inputs with `TEMP` inside `[-4000, 8500]` the temperature that
`get_pressure` stores is `TEMP` itself, with no second-order correction. -/
theorem get_pressure_temperature_uncorrected {m : Session} {raw_temp raw_pres : Nat}
    (h : InRange m raw_temp raw_pres) (h1 : -4000 ≤ spec_TEMP m._c raw_temp)
    (h2 : spec_TEMP m._c raw_temp ≤ 8500) :
    (get_pressure m raw_temp raw_pres).map Prod.fst = some (spec_TEMP m._c raw_temp) := by
  rw [get_pressure_in_range h h1 h2, get_pressure_second_order_t2]
  simp only [sub_zero, Option.map_some']
  rw [int64_t_eq (by omega) (by omega), int32_t_eq (by omega) (by omega)]

theorem datasheet_cal_in_range (fd : Int) (raw_temp raw_pres : Nat)
    (ht : raw_temp < 2 ^ 24) (hp : raw_pres < 2 ^ 24) :
    InRange ⟨fd, datasheet_cal⟩ raw_temp raw_pres := by
  refine ⟨?_, ht, hp⟩
  intro i h1 h6
  show datasheet_cal i < 2 ^ 16
  interval_cases i <;> decide

/-! ## Claims about `get_pressure` -/

/-- C1: on in-range inputs `get_pressure` returns false exactly when the exact
`TEMP` is below -4000 or above 8500; the two bounds themselves are accepted. -/
theorem get_pressure_false_iff (m : Session) (raw_temp raw_pres : Nat)
    (h : InRange m raw_temp raw_pres) :
    get_pressure m raw_temp raw_pres = none ↔
      (spec_TEMP m._c raw_temp < -4000 ∨ spec_TEMP m._c raw_temp > 8500) :=
  get_pressure_none_iff h

/-- Witness for C1 at the lower bound: with the datasheet calibration and
`raw_temp = 6789034` the exact `TEMP` is -4000 and the call is accepted. -/
theorem get_pressure_false_iff_witness :
    InRange ⟨3, datasheet_cal⟩ 6789034 9085466 ∧
      spec_TEMP datasheet_cal 6789034 = -4000 ∧
      (get_pressure ⟨3, datasheet_cal⟩ 6789034 9085466 = none ↔
        (spec_TEMP datasheet_cal 6789034 < -4000 ∨ spec_TEMP datasheet_cal 6789034 > 8500)) :=
  ⟨datasheet_cal_in_range 3 _ _ (by norm_num) (by norm_num), by decide,
    get_pressure_false_iff ⟨3, datasheet_cal⟩ 6789034 9085466
      (datasheet_cal_in_range 3 _ _ (by norm_num) (by norm_num))⟩

/-- C2: on in-range inputs on which `get_pressure` succeeds, the pressure it
returns is the exact `P = ((raw_pres*SENS)/2^21 - OFF)/2^15` with `OFF`, `SENS`
built from the exact second-order terms `OFF2`, `SENS2` of `TEMP`. -/
theorem get_pressure_pressure_exact (m : Session) (raw_temp raw_pres : Nat)
    (h : InRange m raw_temp raw_pres)
    (hs : (get_pressure m raw_temp raw_pres).isSome = true) :
    (get_pressure m raw_temp raw_pres).map Prod.snd =
      some (spec_P raw_pres (spec_OFF m._c raw_temp (spec_OFF2 (spec_TEMP m._c raw_temp)))
        (spec_SENS m._c raw_temp (spec_SENS2 (spec_TEMP m._c raw_temp)))) := by
  have hr : ¬ (spec_TEMP m._c raw_temp < -4000 ∨ spec_TEMP m._c raw_temp > 8500) := by
    intro hc
    rw [(get_pressure_none_iff h).2 hc] at hs
    exact Bool.noConfusion hs
  rw [get_pressure_in_range h (by omega) (by omega)]
  rfl

/-- Witness for C2 below -15 °C, where every second-order term is in play. -/
theorem get_pressure_pressure_exact_witness :
    InRange ⟨3, datasheet_cal⟩ 6789034 9085466 ∧
      (get_pressure ⟨3, datasheet_cal⟩ 6789034 9085466).isSome = true ∧
      (get_pressure ⟨3, datasheet_cal⟩ 6789034 9085466).map Prod.snd =
        some (spec_P 9085466
          (spec_OFF datasheet_cal 6789034 (spec_OFF2 (spec_TEMP datasheet_cal 6789034)))
          (spec_SENS datasheet_cal 6789034 (spec_SENS2 (spec_TEMP datasheet_cal 6789034)))) :=
  ⟨datasheet_cal_in_range 3 _ _ (by norm_num) (by norm_num), by decide,
    get_pressure_pressure_exact ⟨3, datasheet_cal⟩ 6789034 9085466
      (datasheet_cal_in_range 3 _ _ (by norm_num) (by norm_num)) (by decide)⟩

/-- C4: on in-range inputs with `2000 ≤ TEMP ≤ 8500` the second-order terms are
all zero: the call returns `TEMP` unchanged and the pressure built from the
first-order `OFF` and `SENS`. -/
theorem get_pressure_warm (m : Session) (raw_temp raw_pres : Nat)
    (h : InRange m raw_temp raw_pres) (h1 : 2000 ≤ spec_TEMP m._c raw_temp)
    (h2 : spec_TEMP m._c raw_temp ≤ 8500) :
    get_pressure_second_order (get_pressure_dT m raw_temp) (get_pressure_temp m raw_temp)
        = (0, 0, 0) ∧
      get_pressure m raw_temp raw_pres =
        some (spec_TEMP m._c raw_temp,
          spec_P raw_pres (spec_OFF m._c raw_temp 0) (spec_SENS m._c raw_temp 0)) := by
  have e1 : int32_t (spec_TEMP m._c raw_temp - 2000) = spec_TEMP m._c raw_temp - 2000 :=
    int32_t_eq (by omega) (by omega)
  have hz : ∀ dT, get_pressure_second_order dT (spec_TEMP m._c raw_temp) = (0, 0, 0) := by
    intro dT
    have hlo : ¬ spec_TEMP m._c raw_temp - 2000 < 0 := by omega
    simp only [get_pressure_second_order, e1, hlo, if_false]
  have hO : spec_OFF2 (spec_TEMP m._c raw_temp) = 0 := by
    simp only [spec_OFF2, ge_iff_le, h1, if_true]
  have hS : spec_SENS2 (spec_TEMP m._c raw_temp) = 0 := by
    simp only [spec_SENS2, ge_iff_le, h1, if_true]
  refine ⟨by rw [get_pressure_temp_eq h]; exact hz _, ?_⟩
  rw [get_pressure_in_range h (by omega) h2, hz, hO, hS]
  simp only [sub_zero]
  rw [int64_t_eq (by omega) (by omega), int32_t_eq (by omega) (by omega)]

/-- Witness for C4: the datasheet's worked example (`TEMP = 2007`). -/
theorem get_pressure_warm_witness :
    InRange ⟨3, datasheet_cal⟩ 8569150 9085466 ∧
      2000 ≤ spec_TEMP datasheet_cal 8569150 ∧ spec_TEMP datasheet_cal 8569150 ≤ 8500 ∧
      get_pressure_second_order (get_pressure_dT ⟨3, datasheet_cal⟩ 8569150)
        (get_pressure_temp ⟨3, datasheet_cal⟩ 8569150) = (0, 0, 0) ∧
      get_pressure ⟨3, datasheet_cal⟩ 8569150 9085466 =
        some (spec_TEMP datasheet_cal 8569150,
          spec_P 9085466 (spec_OFF datasheet_cal 8569150 0)
            (spec_SENS datasheet_cal 8569150 0)) :=
  ⟨datasheet_cal_in_range 3 _ _ (by norm_num) (by norm_num), by decide, by decide,
    get_pressure_warm ⟨3, datasheet_cal⟩ 8569150 9085466
      (datasheet_cal_in_range 3 _ _ (by norm_num) (by norm_num)) (by decide) (by decide)⟩

/-- C5: the datasheet's worked example is reproduced digit for digit:
`dT = 2366`, `OFF = 2420281617`, `SENS = 1315097036`, temperature 2007 and
pressure 100009. -/
theorem get_pressure_datasheet_example :
    get_pressure_dT ⟨3, datasheet_cal⟩ 8569150 = 2366 ∧
      get_pressure_temp ⟨3, datasheet_cal⟩ 8569150 = 2007 ∧
      get_pressure_second_order 2366 2007 = (0, 0, 0) ∧
      get_pressure_off ⟨3, datasheet_cal⟩ 2366 0 = 2420281617 ∧
      get_pressure_sens ⟨3, datasheet_cal⟩ 2366 0 = 1315097036 ∧
      get_pressure ⟨3, datasheet_cal⟩ 8569150 9085466 = some (2007, 100009) := by
  decide

/-- C3 (evaluation of the code at the failing input): with the datasheet
calibration and `raw_temp = 7381617` the exact `TEMP` is -2000 and the exact
`T2 = dT²/2^31` is 654, but `dT * dT` and `1 << 31` are evaluated in 32-bit
`int`, the machine `t2` is 0 and the returned temperature is -2000, not -2654. -/
theorem get_pressure_t2_lost :
    InRange ⟨3, datasheet_cal⟩ 7381617 9085466 ∧
      spec_dT datasheet_cal 7381617 = -1185167 ∧
      spec_TEMP datasheet_cal 7381617 = -2000 ∧
      spec_T2 datasheet_cal 7381617 = 654 ∧
      (get_pressure_second_order (-1185167) (-2000)).1 = 0 ∧
      (get_pressure ⟨3, datasheet_cal⟩ 7381617 9085466).map Prod.fst = some (-2000) :=
  ⟨datasheet_cal_in_range 3 _ _ (by norm_num) (by norm_num), by decide, by decide,
    by decide, by decide, by decide⟩

/-! ## Command validation and ADC read-out -/

set_option maxRecDepth 100000 in
theorem cmd_invalid_iff : ∀ cmd, cmd < 256 → (cmd_invalid cmd = false ↔ cmd ∈ convert_cmds) := by
  decide

theorem rx_byte_mk (r : Int) (b0 b1 b2 : Nat) (h0 : b0 < 256) (h1 : b1 < 256)
    (h2 : b2 < 256) :
    rx_byte ⟨r, [b0, b1, b2]⟩ 0 = b0 ∧ rx_byte ⟨r, [b0, b1, b2]⟩ 1 = b1 ∧
      rx_byte ⟨r, [b0, b1, b2]⟩ 2 = b2 := by
  simp only [rx_byte, uint8_t, List.getD_cons_zero, List.getD_cons_succ]
  omega

/-- Three bytes assembled big-endian by shifts and ors. -/
theorem adc_assemble (b0 b1 b2 : Nat) (h0 : b0 < 256) (h1 : b1 < 256) (h2 : b2 < 256) :
    uint32_t (uint32_t b0 <<< 16) ||| uint32_t (uint32_t b1 <<< 8) ||| uint32_t b2
      = b0 * 65536 + b1 * 256 + b2 := by
  have e0 : uint32_t b0 = b0 := by unfold uint32_t; omega
  have e1 : uint32_t b1 = b1 := by unfold uint32_t; omega
  have e2 : uint32_t b2 = b2 := by unfold uint32_t; omega
  have f0 : uint32_t (b0 <<< 16) = 2 ^ 16 * b0 := by
    rw [Nat.shiftLeft_eq]; unfold uint32_t; omega
  have f1 : uint32_t (b1 <<< 8) = 2 ^ 8 * b1 := by
    rw [Nat.shiftLeft_eq]; unfold uint32_t; omega
  rw [e0, e1, e2, f0, f1]
  have g1 : 2 ^ 16 * b0 + 2 ^ 8 * b1 = 2 ^ 8 * (2 ^ 8 * b0 + b1) := by ring
  have g2 : 2 ^ 16 * b0 ||| 2 ^ 8 * b1 = 2 ^ 8 * (2 ^ 8 * b0 + b1) := by
    rw [← g1]
    exact (Nat.mul_add_lt_is_or (i := 16) (b := 2 ^ 8 * b1) (by omega) b0).symm
  rw [g2, ← Nat.mul_add_lt_is_or (i := 8) (by omega)]
  ring

/-- C6: on a ready session whose bus transfers succeed, `_start_convert` and
`_do_convert` return true exactly for the ten commands 0x40..0x48, 0x50..0x58
(even values); for every other byte they return false with no message handed to
`ioctl`, and `_do_convert` leaves `data` as it was. -/
theorem convert_cmd_validation (m : Session) (cmd data : Nat) (io : ioctl_reply)
    (hr : ready m) (hio : 0 ≤ io.ret) (hc : cmd < 256) :
    ((_start_convert m cmd io).ret = true ↔ cmd ∈ convert_cmds) ∧
    ((_do_convert m cmd data io).ret = true ↔ cmd ∈ convert_cmds) ∧
    (cmd ∉ convert_cmds →
      (_start_convert m cmd io).ret = false ∧ (_start_convert m cmd io).bus = [] ∧
      (_do_convert m cmd data io).ret = false ∧ (_do_convert m cmd data io).bus = [] ∧
      (_do_convert m cmd data io).data = data) := by
  have hfd : ¬ m._fd < 0 := not_lt.mpr hr
  have hret : ¬ io.ret < 0 := not_lt.mpr hio
  have hv := cmd_invalid_iff cmd hc
  by_cases hmem : cmd ∈ convert_cmds
  · have hi : cmd_invalid cmd = false := hv.2 hmem
    simp [_start_convert, _do_convert, hfd, hret, hi, hmem]
  · have hi : cmd_invalid cmd = true := by
      cases hci : cmd_invalid cmd
      · exact absurd (hv.1 hci) hmem
      · rfl
    simp [_start_convert, _do_convert, hfd, hi, hmem]

/-- Witness for C6: command 0x48 on a ready session. -/
theorem convert_cmd_validation_witness :
    ready ⟨3, datasheet_cal⟩ ∧ (0 : Int) ≤ 0 ∧ 0x48 < 256 ∧
    (((_start_convert ⟨3, datasheet_cal⟩ 0x48 ⟨0, [1, 2, 3]⟩).ret = true ↔
        0x48 ∈ convert_cmds) ∧
      ((_do_convert ⟨3, datasheet_cal⟩ 0x48 0 ⟨0, [1, 2, 3]⟩).ret = true ↔
        0x48 ∈ convert_cmds) ∧
      (0x48 ∉ convert_cmds →
        (_start_convert ⟨3, datasheet_cal⟩ 0x48 ⟨0, [1, 2, 3]⟩).ret = false ∧
        (_start_convert ⟨3, datasheet_cal⟩ 0x48 ⟨0, [1, 2, 3]⟩).bus = [] ∧
        (_do_convert ⟨3, datasheet_cal⟩ 0x48 0 ⟨0, [1, 2, 3]⟩).ret = false ∧
        (_do_convert ⟨3, datasheet_cal⟩ 0x48 0 ⟨0, [1, 2, 3]⟩).bus = [] ∧
        (_do_convert ⟨3, datasheet_cal⟩ 0x48 0 ⟨0, [1, 2, 3]⟩).data = 0)) :=
  ⟨by decide, by decide, by decide,
    convert_cmd_validation ⟨3, datasheet_cal⟩ 0x48 0 ⟨0, [1, 2, 3]⟩ (by decide) (by decide)
      (by decide)⟩

/-- C10: with the bus transfers succeeding and the device returning the bytes
`b0 b1 b2`, `_do_convert` succeeds exactly when `_start_convert` followed by
`read_adc` both succeed, and then both forms store
`b0*65536 + b1*256 + b2`, a value below `2^24`. -/
theorem do_convert_eq_start_then_read (m : Session) (cmd data : Nat) (r r1 r2 : Int)
    (b0 b1 b2 : Nat) (hr : 0 ≤ r) (hr1 : 0 ≤ r1) (hr2 : 0 ≤ r2)
    (h0 : b0 < 256) (h1 : b1 < 256) (h2 : b2 < 256) :
    ((_do_convert m cmd data ⟨r, [b0, b1, b2]⟩).ret = true ↔
      ((_start_convert m cmd ⟨r1, []⟩).ret = true ∧
        (read_adc m data ⟨r2, [b0, b1, b2]⟩).ret = true)) ∧
    ((_do_convert m cmd data ⟨r, [b0, b1, b2]⟩).ret = true →
      (_do_convert m cmd data ⟨r, [b0, b1, b2]⟩).data = b0 * 65536 + b1 * 256 + b2 ∧
      (read_adc m data ⟨r2, [b0, b1, b2]⟩).data = b0 * 65536 + b1 * 256 + b2 ∧
      b0 * 65536 + b1 * 256 + b2 < 2 ^ 24) := by
  have hb := rx_byte_mk r b0 b1 b2 h0 h1 h2
  have hb2 := rx_byte_mk r2 b0 b1 b2 h0 h1 h2
  have ha := adc_assemble b0 b1 b2 h0 h1 h2
  have hret : ¬ r < 0 := not_lt.mpr hr
  have hret1 : ¬ r1 < 0 := not_lt.mpr hr1
  have hret2 : ¬ r2 < 0 := not_lt.mpr hr2
  by_cases hfd : m._fd < 0
  · simp [_do_convert, _start_convert, read_adc, hfd]
  · cases hi : cmd_invalid cmd
    · simp only [_do_convert, _start_convert, read_adc, hfd, hi, hret, hret1, hret2,
        if_false, hb.1, hb.2.1, hb.2.2, hb2.1, hb2.2.1, hb2.2.2, ha, and_self, true_iff,
        true_and, forall_const, Bool.false_eq_true]
      omega
    · simp [_do_convert, _start_convert, read_adc, hfd, hi]

/-- Witness for C10: command 0x58 with result bytes 0x8a 0xa2 0x1a. -/
theorem do_convert_eq_start_then_read_witness :
    (_do_convert ⟨3, datasheet_cal⟩ 0x58 0 ⟨0, [0x8a, 0xa2, 0x1a]⟩).ret = true ∧
      (_do_convert ⟨3, datasheet_cal⟩ 0x58 0 ⟨0, [0x8a, 0xa2, 0x1a]⟩).data = 9085466 ∧
      (read_adc ⟨3, datasheet_cal⟩ 0 ⟨0, [0x8a, 0xa2, 0x1a]⟩).data = 9085466 :=
  have h := do_convert_eq_start_then_read ⟨3, datasheet_cal⟩ 0x58 0 0 0 0 0x8a 0xa2 0x1a
    (by decide) (by decide) (by decide) (by decide) (by decide) (by decide)
  ⟨by decide, (h.2 (by decide)).1, (h.2 (by decide)).2.1⟩

/-! ## `_crc4` is linear over exclusive-or -/

theorem uint16_t_xor (a b : Nat) : uint16_t (a ^^^ b) = uint16_t a ^^^ uint16_t b := by
  apply Nat.eq_of_testBit_eq
  intro i
  simp only [uint16_t, show (65536 : Nat) = 2 ^ 16 by norm_num, Nat.testBit_mod_two_pow,
    Nat.testBit_xor, Bool.and_xor_distrib_left]

theorem uint8_t_xor (a b : Nat) : uint8_t (a ^^^ b) = uint8_t a ^^^ uint8_t b := by
  apply Nat.eq_of_testBit_eq
  intro i
  simp only [uint8_t, show (256 : Nat) = 2 ^ 8 by norm_num, Nat.testBit_mod_two_pow,
    Nat.testBit_xor, Bool.and_xor_distrib_left]

theorem shiftLeft_xor (a b n : Nat) : (a ^^^ b) <<< n = (a <<< n) ^^^ (b <<< n) := by
  apply Nat.eq_of_testBit_eq
  intro i
  simp only [Nat.testBit_shiftLeft, Nat.testBit_xor, Bool.and_xor_distrib_left]

theorem shiftRight_xor (a b n : Nat) : (a ^^^ b) >>> n = (a >>> n) ^^^ (b >>> n) := by
  apply Nat.eq_of_testBit_eq
  intro i
  simp only [Nat.testBit_shiftRight, Nat.testBit_xor]

theorem and_8000_ne_zero (r : Nat) : (r &&& 0x8000 ≠ 0) ↔ r.testBit 15 = true := by
  have e : (0x8000 : Nat) = 2 ^ 15 := by norm_num
  rw [e]
  constructor
  · intro h
    by_contra hc
    apply h
    apply Nat.eq_of_testBit_eq
    intro i
    simp only [Nat.testBit_and, Nat.testBit_two_pow, Nat.zero_testBit]
    by_cases hi : 15 = i
    · subst hi; simp [hc]
    · simp [hi]
  · intro h hz
    have h2 : (r &&& 2 ^ 15).testBit 15 = true := by
      rw [Nat.testBit_and, h, Nat.testBit_two_pow_self]; rfl
    rw [hz, Nat.zero_testBit] at h2
    exact Bool.noConfusion h2

theorem _crc4_bit_eq (r : Nat) :
    _crc4_bit r = uint16_t ((r <<< 1) ^^^ (if r.testBit 15 = true then 0x3000 else 0)) := by
  unfold _crc4_bit
  by_cases h : r.testBit 15 = true
  · rw [if_pos ((and_8000_ne_zero r).2 h), if_pos h]
  · rw [if_neg (fun hc => h ((and_8000_ne_zero r).1 hc)), if_neg h, Nat.xor_zero]

theorem xor_xor_xor_comm (a b c d : Nat) :
    (a ^^^ b) ^^^ (c ^^^ d) = (a ^^^ c) ^^^ (b ^^^ d) := by
  apply Nat.eq_of_testBit_eq
  intro i
  simp only [Nat.testBit_xor]
  cases a.testBit i <;> cases b.testBit i <;> cases c.testBit i <;> cases d.testBit i <;> rfl

theorem _crc4_bit_xor (a b : Nat) : _crc4_bit (a ^^^ b) = _crc4_bit a ^^^ _crc4_bit b := by
  rw [_crc4_bit_eq, _crc4_bit_eq, _crc4_bit_eq, ← uint16_t_xor, shiftLeft_xor, Nat.testBit_xor,
    ← xor_xor_xor_comm]
  congr 1
  cases a.testBit 15 <;> cases b.testBit 15 <;> rfl

theorem iterate_crc4_bit_xor (n a b : Nat) :
    Nat.iterate _crc4_bit n (a ^^^ b) = Nat.iterate _crc4_bit n a ^^^ Nat.iterate _crc4_bit n b := by
  induction n generalizing a b with
  | zero => rfl
  | succ n ih => simp only [Function.iterate_succ, Function.comp_apply, _crc4_bit_xor, ih]

theorem _crc4_byte_xor (c e : Nat → Nat) (r s byte : Nat) :
    _crc4_byte (fun i => c i ^^^ e i) (r ^^^ s) byte
      = _crc4_byte c r byte ^^^ _crc4_byte e s byte := by
  unfold _crc4_byte
  simp only
  split_ifs
  · rw [← iterate_crc4_bit_xor, ← uint16_t_xor, Nat.and_xor_distrib_right,
      xor_xor_xor_comm]
  · rw [← iterate_crc4_bit_xor, ← uint16_t_xor, shiftRight_xor, xor_xor_xor_comm]

theorem _crc4_fold_xor (c e : Nat → Nat) (l : List Nat) (r s : Nat) :
    l.foldl (_crc4_byte (fun i => c i ^^^ e i)) (r ^^^ s)
      = l.foldl (_crc4_byte c) r ^^^ l.foldl (_crc4_byte e) s := by
  induction l generalizing r s with
  | nil => rfl
  | cons x l ih => simp only [List.foldl_cons, _crc4_byte_xor, ih]

/-- Flipping bit `b` of a word other than word 7 changes `_crc4` by exactly the
syndrome of that bit. -/
theorem _crc4_flip (m : Session) (w b : Nat) (hw : w ≠ 7) :
    (_crc4 ⟨m._fd, flip_bit m._c w b⟩).1 = (_crc4 m).1 ^^^ syndrome w b := by
  have hmask : Function.update (flip_bit m._c w b) 7
        (uint16_t (flip_bit m._c w b 7 &&& 0xff00))
      = fun i => Function.update m._c 7 (uint16_t (m._c 7 &&& 0xff00)) i
          ^^^ bit_error w b i := by
    funext i
    by_cases h7 : i = 7
    · subst h7
      have hne : (7 : Nat) ≠ w := fun h => hw h.symm
      simp [flip_bit, bit_error, Function.update, hne]
    · by_cases hi : i = w
      · subst hi
        simp [flip_bit, bit_error, Function.update, h7]
      · simp [flip_bit, bit_error, Function.update, h7, hi]
  have hf := _crc4_fold_xor (Function.update m._c 7 (uint16_t (m._c 7 &&& 0xff00)))
    (bit_error w b) (List.range 16) 0 0
  rw [Nat.xor_zero] at hf
  simp only [_crc4, syndrome, hmask, hf, shiftRight_xor, uint8_t_xor]

set_option maxRecDepth 100000 in
theorem syndrome_ne_zero : ∀ w, w < 7 → ∀ b, b < 16 → syndrome w b ≠ 0 := by
  decide

theorem _crc4_flip_ne (m : Session) (w b : Nat) (hw : w < 7) (hb : b < 16) :
    (_crc4 ⟨m._fd, flip_bit m._c w b⟩).1 ≠ (_crc4 m).1 := by
  rw [_crc4_flip m w b (by omega)]
  intro h
  have h2 : syndrome w b = (_crc4 m).1 ^^^ ((_crc4 m).1 ^^^ syndrome w b) :=
    (Nat.xor_cancel_left _ _).symm
  rw [h, Nat.xor_self] at h2
  exact syndrome_ne_zero w hw b hb h2

set_option maxRecDepth 100000 in
theorem an520_cal_crc_ok : (_crc4 ⟨3, an520_cal⟩).1 = (an520_cal 7 &&& 0xF) := by
  decide

theorem flip_bit_an520 : flip_bit an520_cal 1 8 1 = an520_cal 1 ^^^ 0x0100 := by
  simp [flip_bit]

/-! ## Claim about `_crc4` -/

/-- C7: flipping any one of the 112 bits of words 0..6 changes `_crc4`; hence a
set that passes the check `_crc4(c) == (c[7] & 0xF)` fails it once such a bit
is flipped. -/
theorem crc4_detects_single_bit_flip (m : Session) (w b : Nat) (hw : w < 7) (hb : b < 16) :
    (_crc4 ⟨m._fd, flip_bit m._c w b⟩).1 ≠ (_crc4 m).1 ∧
    ((_crc4 m).1 = (m._c 7 &&& 0xF) →
      (_crc4 ⟨m._fd, flip_bit m._c w b⟩).1 ≠ (flip_bit m._c w b 7 &&& 0xF)) := by
  refine ⟨_crc4_flip_ne m w b hw hb, ?_⟩
  intro hok
  have h7 : flip_bit m._c w b 7 = m._c 7 := by
    have hne : (7 : Nat) ≠ w := by omega
    simp [flip_bit, Function.update, hne]
  rw [h7, ← hok]
  exact _crc4_flip_ne m w b hw hb

/-- Witness for C7: the test's flip of bit 0x0100 of word 1, on a set whose CRC
is valid. -/
theorem crc4_detects_single_bit_flip_witness :
    1 < 7 ∧ 8 < 16 ∧ (_crc4 ⟨3, an520_cal⟩).1 = (an520_cal 7 &&& 0xF) ∧
      flip_bit an520_cal 1 8 1 = an520_cal 1 ^^^ 0x0100 ∧
      (_crc4 ⟨3, flip_bit an520_cal 1 8⟩).1 ≠ (flip_bit an520_cal 1 8 7 &&& 0xF) :=
  ⟨by decide, by decide, an520_cal_crc_ok, flip_bit_an520,
    (crc4_detects_single_bit_flip ⟨3, an520_cal⟩ 1 8 (by decide) (by decide)).2
      an520_cal_crc_ok⟩

/-! ## Construction and readiness -/

theorem _reset_ret_iff (m : Session) (io : ioctl_reply) (hfd : 0 ≤ m._fd) :
    (_reset m io).ret = true ↔
      (0 ≤ io.ret ∧ rx_byte io 0 = 0x00 ∧ rx_byte io 1 = 0xff) := by
  have h1 : ¬ m._fd < 0 := not_lt.mpr hfd
  unfold _reset
  simp only [h1, if_false]
  by_cases hio : io.ret < 0
  · simp only [hio, if_true]
    constructor
    · intro h; exact Bool.noConfusion h
    · intro h; omega
  · simp only [hio, if_false]
    by_cases hb : rx_byte io 0 ≠ 0 ∨ rx_byte io 1 ≠ 0xff
    · simp only [hb, if_true]
      constructor
      · intro h; exact Bool.noConfusion h
      · rintro ⟨_, h0, h1⟩
        rcases hb with hb | hb
        · exact absurd h0 hb
        · exact absurd h1 hb
    · simp only [hb, if_false, true_iff]
      have h0 : rx_byte io 0 = 0 := by
        by_contra hc; exact hb (Or.inl hc)
      have h1 : rx_byte io 1 = 0xff := by
        by_contra hc; exact hb (Or.inr hc)
      exact ⟨by omega, h0, h1⟩

theorem _read_cal_word_ok (m : Session) (n data : Nat) (io : ioctl_reply)
    (hfd : 0 ≤ m._fd) (hn : n < 8) (hio : 0 ≤ io.ret) :
    (_read_cal_word m n data io).ret = true ∧
      (_read_cal_word m n data io).data = cal_word io := by
  have h1 : ¬ m._fd < 0 := not_lt.mpr hfd
  have h2 : ¬ ((n : Int) ≥ 8) := by omega
  have h3 : ¬ io.ret < 0 := not_lt.mpr hio
  simp only [_read_cal_word, h1, h2, h3, if_false, cal_word, and_self]

theorem _read_cal_word_fail (m : Session) (n data : Nat) (io : ioctl_reply)
    (hio : io.ret < 0) : (_read_cal_word m n data io).ret = false := by
  unfold _read_cal_word
  split_ifs <;> rfl

/-- The loop of `_read_cal` on a ready session: it succeeds exactly when every
remaining request succeeds, and then holds the assembled words. -/
theorem _read_cal_loop_spec (io : Nat → ioctl_reply) :
    ∀ (k n : Nat) (m : Session) (b : List (List spi_ioc_transfer)),
      0 ≤ m._fd → n + k ≤ 8 →
      (((_read_cal_loop io k n m b).1 = true ↔
          ∀ i, n ≤ i → i < n + k → 0 ≤ (io i).ret) ∧
        ((_read_cal_loop io k n m b).1 = true →
          (_read_cal_loop io k n m b).2.1 =
            ⟨m._fd, fun i => if n ≤ i ∧ i < n + k then cal_word (io i) else m._c i⟩)) := by
  intro k
  induction k with
  | zero =>
    intro n m b _ _
    refine ⟨⟨fun _ i h1 h2 => by omega, fun _ => rfl⟩, fun _ => ?_⟩
    have hf : (fun i => if n ≤ i ∧ i < n + 0 then cal_word (io i) else m._c i) = m._c := by
      funext i
      have : ¬ (n ≤ i ∧ i < n + 0) := by omega
      simp only [this, if_false]
    simp only [_read_cal_loop, hf]
  | succ k ih =>
    intro n m b hfd hn
    by_cases hio : (io n).ret < 0
    · have hr := _read_cal_word_fail m n (m._c n) (io n) hio
      simp only [_read_cal_loop, Int.natCast_add, hr, if_true]
      refine ⟨⟨fun h => Bool.noConfusion h, fun h => ?_⟩, fun h => Bool.noConfusion h⟩
      have := h n (le_refl _) (by omega)
      omega
    · have hio2 : 0 ≤ (io n).ret := not_lt.mp hio
      have hr := _read_cal_word_ok m n (m._c n) (io n) hfd (by omega) hio2
      have hne : ¬ ((_read_cal_word m n (m._c n) (io n)).ret = false) := by
        rw [hr.1]; exact Bool.noConfusion
      have ih2 := ih (n + 1) { m with _c := Function.update m._c n (cal_word (io n)) }
        (b ++ (_read_cal_word m n (m._c n) (io n)).bus) hfd (by omega)
      have hstep : _read_cal_loop io (k + 1) n m b =
          _read_cal_loop io k (n + 1)
            { m with _c := Function.update m._c n (cal_word (io n)) }
            (b ++ (_read_cal_word m n (m._c n) (io n)).bus) := by
        simp only [_read_cal_loop]
        rw [if_neg hne, hr.2]
      rw [hstep]
      refine ⟨⟨fun h i h1 h2 => ?_, fun h => ?_⟩, fun h => ?_⟩
      · rcases Nat.eq_or_lt_of_le h1 with he | hl
        · rw [← he]; exact hio2
        · exact (ih2.1.1 h) i hl (by omega)
      · exact ih2.1.2 (fun i h1 h2 => h i (by omega) (by omega))
      · rw [ih2.2 h]
        congr 1
        funext i
        by_cases hi : i = n
        · subst hi
          have c1 : ¬ (i + 1 ≤ i ∧ i < i + 1 + k) := by omega
          have c2 : i ≤ i ∧ i < i + (k + 1) := by omega
          rw [if_neg c1, if_pos c2]
          exact Function.update_same _ _ _
        · by_cases hin : n + 1 ≤ i ∧ i < n + 1 + k
          · have c2 : n ≤ i ∧ i < n + (k + 1) := by omega
            rw [if_pos hin, if_pos c2]
          · have c2 : ¬ (n ≤ i ∧ i < n + (k + 1)) := by omega
            rw [if_neg hin, if_neg c2]
            exact Function.update_noteq hi _ _

theorem _read_cal_spec (m : Session) (io : Nat → ioctl_reply) (hfd : 0 ≤ m._fd) :
    ((_read_cal m io).1 = true ↔ ∀ n, n < 8 → 0 ≤ (io n).ret) ∧
      ((_read_cal m io).1 = true →
        (_read_cal m io).2.1 =
          ⟨m._fd, fun n => if n < 8 then cal_word (io n) else m._c n⟩) := by
  have h := _read_cal_loop_spec io 8 0 m [] hfd (by norm_num)
  unfold _read_cal
  refine ⟨⟨fun hr n hn => (h.1.1 hr) n (Nat.zero_le _) (by omega),
    fun hr => h.1.2 (fun i _ h2 => hr i (by omega))⟩, fun hr => ?_⟩
  rw [h.2 hr]
  congr 1
  funext i
  by_cases hi : i < 8
  · have c : 0 ≤ i ∧ i < 0 + 8 := by omega
    rw [if_pos c, if_pos hi]
  · have c : ¬ (0 ≤ i ∧ i < 0 + 8) := by omega
    rw [if_neg c, if_neg hi]

/-- The call `_crc4` hands the session back unchanged (`_c[7]` is restored). -/
theorem _crc4_session (m : Session) : (_crc4 m).2 = m := by
  unfold _crc4
  simp only [Function.update_idem, Function.update_eq_self]

theorem not_ready_closed (c : Nat → Nat) : ¬ ready ⟨-1, c⟩ := by
  show ¬ ((0 : Int) ≤ -1)
  decide

theorem cfg_ok_iff (cfg : Nat → Int) :
    (∀ i, i < 6 → 0 ≤ cfg i) ↔
      ¬ (cfg 0 < 0 ∨ cfg 1 < 0 ∨ cfg 2 < 0 ∨ cfg 3 < 0 ∨ cfg 4 < 0 ∨ cfg 5 < 0) := by
  constructor
  · intro h
    have h0 := h 0 (by norm_num)
    have h1 := h 1 (by norm_num)
    have h2 := h 2 (by norm_num)
    have h3 := h 3 (by norm_num)
    have h4 := h 4 (by norm_num)
    have h5 := h 5 (by norm_num)
    omega
  · intro h i hi
    interval_cases i <;> omega

/-- The constructor leaves a ready session exactly when every step succeeded. -/
theorem MS5611_ready_iff (c0 : Nat → Nat) (spi_clk : Nat) (t : Transport) :
    ready (MS5611 c0 spi_clk t) ↔ construction_ok c0 spi_clk t := by
  unfold MS5611 construction_ok
  simp only []
  by_cases hclk : spi_clk = 0 ∨ spi_clk > 20000000
  · rw [if_pos hclk]
    exact ⟨fun h => absurd h (not_ready_closed _), fun h => by omega⟩
  rw [if_neg hclk]
  by_cases hopen : t.open_ret < 0
  · rw [if_pos hopen]
    exact ⟨fun h => absurd hopen (not_lt.mpr h), fun h => by omega⟩
  rw [if_neg hopen]
  have hfd : 0 ≤ (⟨t.open_ret, c0⟩ : Session)._fd := not_lt.mp hopen
  by_cases hcfg : t.cfg 0 < 0 ∨ t.cfg 1 < 0 ∨ t.cfg 2 < 0 ∨ t.cfg 3 < 0 ∨ t.cfg 4 < 0 ∨
      t.cfg 5 < 0
  · rw [if_pos hcfg]
    exact ⟨fun h => absurd h (not_ready_closed _),
      fun h => absurd hcfg ((cfg_ok_iff t.cfg).1 h.2.2.1)⟩
  rw [if_neg hcfg]
  have hreset := _reset_ret_iff ⟨t.open_ret, c0⟩ t.reset hfd
  by_cases hrst : (_reset ⟨t.open_ret, c0⟩ t.reset).ret = false
  · rw [if_pos hrst]
    refine ⟨fun h => absurd h (not_ready_closed _), fun h => ?_⟩
    rw [hreset.2 h.2.2.2.1] at hrst
    exact Bool.noConfusion hrst
  rw [if_neg hrst]
  have hrst2 : (_reset ⟨t.open_ret, c0⟩ t.reset).ret = true := by
    cases hx : (_reset ⟨t.open_ret, c0⟩ t.reset).ret
    · exact absurd hx hrst
    · rfl
  have hcal := _read_cal_spec ⟨t.open_ret, c0⟩ t.cal hfd
  by_cases hrc : (_read_cal ⟨t.open_ret, c0⟩ t.cal).1 = false
  · rw [if_pos hrc]
    refine ⟨fun h => absurd h (not_ready_closed _), fun h => ?_⟩
    rw [hcal.1.2 h.2.2.2.2.1] at hrc
    exact Bool.noConfusion hrc
  rw [if_neg hrc]
  have hrc2 : (_read_cal ⟨t.open_ret, c0⟩ t.cal).1 = true := by
    cases hx : (_read_cal ⟨t.open_ret, c0⟩ t.cal).1
    · exact absurd hx hrc
    · rfl
  have hm : (_read_cal ⟨t.open_ret, c0⟩ t.cal).2.1 = ⟨t.open_ret, loaded_cal c0 t⟩ :=
    hcal.2 hrc2
  rw [hm, _crc4_session]
  by_cases hcrc : (loaded_cal c0 t 7 &&& 0x000f) ≠ (_crc4 ⟨t.open_ret, loaded_cal c0 t⟩).1
  · rw [if_pos hcrc]
    exact ⟨fun h => absurd h (not_ready_closed _), fun h => absurd h.2.2.2.2.2.symm hcrc⟩
  rw [if_neg hcrc]
  have hcrc2 : (_crc4 ⟨t.open_ret, loaded_cal c0 t⟩).1 = (loaded_cal c0 t 7 &&& 0xF) := by
    by_contra hc
    exact hcrc (fun h => hc h.symm)
  refine ⟨fun _ => ⟨by omega, not_lt.mp hopen, (cfg_ok_iff t.cfg).2 hcfg, hreset.1 hrst2,
    hcal.1.1 hrc2, hcrc2⟩, fun _ => not_lt.mp hopen⟩

theorem _read_cal_loop_fd (io : Nat → ioctl_reply) :
    ∀ (k n : Nat) (m : Session) (b : List (List spi_ioc_transfer)),
      (_read_cal_loop io k n m b).2.1._fd = m._fd := by
  intro k
  induction k with
  | zero => intro n m b; rfl
  | succ k ih =>
    intro n m b
    simp only [_read_cal_loop]
    split_ifs
    · rfl
    · rw [ih]

/-- No call writes a non-negative value to `_fd`: a call leaves it alone or
sets it to -1. -/
theorem Call.run_fd (m : Session) (c : Call) :
    (c.run m)._fd = m._fd ∨ (c.run m)._fd = -1 := by
  cases c with
  | read_cal io => exact Or.inl (_read_cal_loop_fd io 8 0 m [])
  | crc4 => left; show (_crc4 m).2._fd = m._fd; rw [_crc4_session]
  | destroy =>
    show (MS5611.destroy m)._fd = m._fd ∨ (MS5611.destroy m)._fd = -1
    unfold MS5611.destroy
    split_ifs
    · exact Or.inl rfl
    · exact Or.inr rfl
  | _ => exact Or.inl rfl

theorem run_calls_ready (calls : List Call) :
    ∀ m : Session, ready (calls.foldl Call.run m) → ready m := by
  induction calls with
  | nil => intro m h; exact h
  | cons c cs ih =>
    intro m h
    have h1 : ready (c.run m) := ih (c.run m) h
    rcases Call.run_fd m c with he | he
    · unfold ready at h1 ⊢; rw [he] at h1; exact h1
    · unfold ready at h1; rw [he] at h1; exact absurd h1 (by decide)

theorem not_ready_bus_ops (m : Session) (h : ¬ ready m) (cmd data : Nat)
    (io : ioctl_reply) :
    ((_start_convert m cmd io).ret = false ∧ (_start_convert m cmd io).bus = []) ∧
    ((read_adc m data io).ret = false ∧ (read_adc m data io).bus = [] ∧
      (read_adc m data io).data = data) ∧
    ((_do_convert m cmd data io).ret = false ∧ (_do_convert m cmd data io).bus = [] ∧
      (_do_convert m cmd data io).data = data) := by
  have hfd : m._fd < 0 := not_le.mp h
  simp only [_start_convert, read_adc, _do_convert, hfd, if_true, and_self]

theorem get_pressure_reads_c (m : Session) (fd : Int) (raw_temp raw_pres : Nat) :
    get_pressure m raw_temp raw_pres = get_pressure ⟨fd, m._c⟩ raw_temp raw_pres := by
  have h1 : get_pressure_dT m raw_temp = get_pressure_dT ⟨fd, m._c⟩ raw_temp := by
    unfold get_pressure_dT; rfl
  have h2 : get_pressure_temp m raw_temp = get_pressure_temp ⟨fd, m._c⟩ raw_temp := by
    unfold get_pressure_temp; rw [h1]
  have h3 : ∀ a b, get_pressure_off m a b = get_pressure_off ⟨fd, m._c⟩ a b := by
    intro a b; unfold get_pressure_off; rfl
  have h4 : ∀ a b, get_pressure_sens m a b = get_pressure_sens ⟨fd, m._c⟩ a b := by
    intro a b; unfold get_pressure_sens; rfl
  unfold get_pressure
  rw [h1, h2]
  simp only [h3, h4]

/-- A ready session left by the constructor holds the descriptor returned by
`open` and exactly the eight words assembled from the calibration reads. -/
theorem MS5611_ready_eq (c0 : Nat → Nat) (spi_clk : Nat) (t : Transport) :
    ready (MS5611 c0 spi_clk t) → MS5611 c0 spi_clk t = ⟨t.open_ret, loaded_cal c0 t⟩ := by
  unfold MS5611
  simp only []
  by_cases hclk : spi_clk = 0 ∨ spi_clk > 20000000
  · rw [if_pos hclk]
    exact fun h => absurd h (not_ready_closed _)
  rw [if_neg hclk]
  by_cases hopen : t.open_ret < 0
  · rw [if_pos hopen]
    exact fun h => absurd hopen (not_lt.mpr h)
  rw [if_neg hopen]
  have hfd : 0 ≤ (⟨t.open_ret, c0⟩ : Session)._fd := not_lt.mp hopen
  by_cases hcfg : t.cfg 0 < 0 ∨ t.cfg 1 < 0 ∨ t.cfg 2 < 0 ∨ t.cfg 3 < 0 ∨ t.cfg 4 < 0 ∨
      t.cfg 5 < 0
  · rw [if_pos hcfg]
    exact fun h => absurd h (not_ready_closed _)
  rw [if_neg hcfg]
  by_cases hrst : (_reset ⟨t.open_ret, c0⟩ t.reset).ret = false
  · rw [if_pos hrst]
    exact fun h => absurd h (not_ready_closed _)
  rw [if_neg hrst]
  have hcal := _read_cal_spec ⟨t.open_ret, c0⟩ t.cal hfd
  by_cases hrc : (_read_cal ⟨t.open_ret, c0⟩ t.cal).1 = false
  · rw [if_pos hrc]
    exact fun h => absurd h (not_ready_closed _)
  rw [if_neg hrc]
  have hrc2 : (_read_cal ⟨t.open_ret, c0⟩ t.cal).1 = true := by
    cases hx : (_read_cal ⟨t.open_ret, c0⟩ t.cal).1
    · exact absurd hx hrc
    · rfl
  have hm : (_read_cal ⟨t.open_ret, c0⟩ t.cal).2.1 = ⟨t.open_ret, loaded_cal c0 t⟩ :=
    hcal.2 hrc2
  rw [hm, _crc4_session]
  by_cases hcrc : (loaded_cal c0 t 7 &&& 0x000f) ≠ (_crc4 ⟨t.open_ret, loaded_cal c0 t⟩).1
  · rw [if_pos hcrc]
    exact fun h => absurd h (not_ready_closed _)
  rw [if_neg hcrc]
  exact fun _ => rfl

/-- The value of `_crc4` depends on the stored words only. -/
theorem _crc4_reads_c (m : Session) (fd : Int) : (_crc4 m).1 = (_crc4 ⟨fd, m._c⟩).1 := by
  unfold _crc4
  rfl

/-- A call that does not store into `_c` leaves the words as they were. -/
theorem Call.run_cal (m : Session) (c : Call) (h : c.writes_cal = false) :
    (c.run m)._c = m._c := by
  cases c with
  | read_cal io => exact Bool.noConfusion h
  | set_c n v => exact Bool.noConfusion h
  | crc4 => show (_crc4 m).2._c = m._c; rw [_crc4_session]
  | destroy =>
    show (MS5611.destroy m)._c = m._c
    unfold MS5611.destroy
    split_ifs <;> rfl
  | _ => rfl

theorem run_calls_cal (calls : List Call) :
    ∀ m : Session, (∀ c ∈ calls, c.writes_cal = false) →
      (calls.foldl Call.run m)._c = m._c := by
  induction calls with
  | nil => intro m _; rfl
  | cons c cs ih =>
    intro m h
    have h1 := ih (c.run m) (fun x hx => h x (List.mem_cons_of_mem _ hx))
    rw [List.foldl_cons, h1]
    exact Call.run_cal m c (h c (List.mem_cons_self _ _))

/-- A session built by the constructor and then used through calls that do not
store into `_c`: while it is ready it holds the loaded words, and they pass the
CRC check. -/
theorem ready_session_cal_checked (c0 : Nat → Nat) (spi_clk : Nat) (t : Transport)
    (calls : List Call) (hc : ∀ c ∈ calls, c.writes_cal = false)
    (hr : ready (calls.foldl Call.run (MS5611 c0 spi_clk t))) :
    (calls.foldl Call.run (MS5611 c0 spi_clk t))._c = loaded_cal c0 t ∧
      (_crc4 (calls.foldl Call.run (MS5611 c0 spi_clk t))).1 =
        ((calls.foldl Call.run (MS5611 c0 spi_clk t))._c 7 &&& 0xF) := by
  have hr0 : ready (MS5611 c0 spi_clk t) := run_calls_ready calls _ hr
  have heq := MS5611_ready_eq c0 spi_clk t hr0
  have hok := ((MS5611_ready_iff c0 spi_clk t).1 hr0).2.2.2.2.2
  have hcal : (calls.foldl Call.run (MS5611 c0 spi_clk t))._c = loaded_cal c0 t := by
    rw [run_calls_cal calls _ hc, heq]
  refine ⟨hcal, ?_⟩
  rw [_crc4_reads_c _ t.open_ret, hcal]
  exact hok

/-- The result of `get_pressure` depends on the words 1..6 only: neither `_fd`
nor word 0 nor word 7 (which holds the CRC nibble) enters it. -/
theorem get_pressure_words (m n : Session) (raw_temp raw_pres : Nat)
    (h : ∀ i, 1 ≤ i → i ≤ 6 → n._c i = m._c i) :
    get_pressure n raw_temp raw_pres = get_pressure m raw_temp raw_pres := by
  have c1 := h 1 (by norm_num) (by norm_num)
  have c2 := h 2 (by norm_num) (by norm_num)
  have c3 := h 3 (by norm_num) (by norm_num)
  have c4 := h 4 (by norm_num) (by norm_num)
  have c5 := h 5 (by norm_num) (by norm_num)
  have c6 := h 6 (by norm_num) (by norm_num)
  have h1 : get_pressure_dT n raw_temp = get_pressure_dT m raw_temp := by
    unfold get_pressure_dT; rw [c5]
  have h2 : get_pressure_temp n raw_temp = get_pressure_temp m raw_temp := by
    unfold get_pressure_temp; rw [h1, c6]
  have h3 : ∀ a b, get_pressure_off n a b = get_pressure_off m a b := by
    intro a b; unfold get_pressure_off; rw [c2, c4]
  have h4 : ∀ a b, get_pressure_sens n a b = get_pressure_sens m a b := by
    intro a b; unfold get_pressure_sens; rw [c1, c3]
  unfold get_pressure
  rw [h1, h2]
  simp only [h3, h4]

set_option maxRecDepth 100000 in
theorem an520_construction_ok : construction_ok (fun _ => 0) 20000000 (transport_of an520_cal) := by
  refine ⟨by decide, by decide, fun _ _ => le_refl _, by decide, fun _ _ => le_refl _, ?_⟩
  decide

set_option maxRecDepth 100000 in
theorem bad_crc_loaded :
    (_crc4 ⟨3, loaded_cal (fun _ => 0) (transport_of bad_crc_cal)⟩).1 ≠
      (loaded_cal (fun _ => 0) (transport_of bad_crc_cal) 7 &&& 0xF) := by
  decide

set_option maxRecDepth 100000 in
theorem bad_crc_get_pressure :
    get_pressure (MS5611 (fun _ => 0) 20000000 (transport_of bad_crc_cal)) 8569150 9085466
      = some (2007, 100009) := by
  decide

theorem bad_crc_cal_in_range : InRange ⟨-1, bad_crc_cal⟩ 8569150 9085466 := by
  refine ⟨?_, by norm_num, by norm_num⟩
  intro i h1 h6
  show bad_crc_cal i < 2 ^ 16
  interval_cases i <;> decide

theorem bad_crc_cal_words :
    ∀ i, 1 ≤ i → i ≤ 6 → (⟨3, datasheet_cal⟩ : Session)._c i = (⟨-1, bad_crc_cal⟩ : Session)._c i := by
  intro i h1 h6
  show datasheet_cal i = bad_crc_cal i
  interval_cases i <;> decide

theorem bad_crc_cal_temp :
    ¬ (spec_TEMP bad_crc_cal 8569150 < -4000 ∨ spec_TEMP bad_crc_cal 8569150 > 8500) := by
  decide

theorem sample_calls_keep_cal : ∀ c ∈ sample_calls, c.writes_cal = false := by
  decide

theorem an520_session_ready_after_calls :
    ready (sample_calls.foldl Call.run (MS5611 (fun _ => 0) 20000000 (transport_of an520_cal))) := by
  simp only [sample_calls, List.foldl_cons, List.foldl_nil, Call.run]
  exact (MS5611_ready_iff _ _ _).2 an520_construction_ok

/-! ## Claims about construction and the CRC gate -/

/-- C8: the session left by the constructor is ready exactly when every step
succeeded (clock rate in `(0, 20000000]`, `open`, the six configuration calls,
the reset exchange reading `0x00` then `0xFF`, the eight calibration reads, and
the CRC of the loaded words); a session that is not ready never becomes ready
through any later sequence of calls. -/
theorem constructor_ready_iff (c0 : Nat → Nat) (spi_clk : Nat) (t : Transport) :
    (ready (MS5611 c0 spi_clk t) ↔
      ((0 < spi_clk ∧ spi_clk ≤ 20000000) ∧ 0 ≤ t.open_ret ∧ (∀ i, i < 6 → 0 ≤ t.cfg i) ∧
        (0 ≤ t.reset.ret ∧ rx_byte t.reset 0 = 0x00 ∧ rx_byte t.reset 1 = 0xff) ∧
        (∀ n, n < 8 → 0 ≤ (t.cal n).ret) ∧
        (_crc4 ⟨t.open_ret, loaded_cal c0 t⟩).1 = (loaded_cal c0 t 7 &&& 0xF))) ∧
    (∀ calls : List Call,
      ready (calls.foldl Call.run (MS5611 c0 spi_clk t)) → ready (MS5611 c0 spi_clk t)) :=
  ⟨MS5611_ready_iff c0 spi_clk t, fun calls => run_calls_ready calls _⟩

/-- Witness for C8: a transport on which every step succeeds and that delivers
a calibration set with a valid CRC yields a ready session. -/
theorem constructor_ready_iff_witness :
    ready (MS5611 (fun _ => 0) 20000000 (transport_of an520_cal)) :=
  (constructor_ready_iff (fun _ => 0) 20000000 (transport_of an520_cal)).1.2
    an520_construction_ok

/-- C9 (counterexample): the session that the constructor leaves after a CRC
mismatch is not ready and its stored words fail the check, yet `get_pressure`
returns true with a compensated temperature and pressure. -/
theorem get_pressure_ignores_crc :
    ¬ ready (MS5611 (fun _ => 0) 20000000 (transport_of bad_crc_cal)) ∧
    (_crc4 ⟨3, loaded_cal (fun _ => 0) (transport_of bad_crc_cal)⟩).1 ≠
      (loaded_cal (fun _ => 0) (transport_of bad_crc_cal) 7 &&& 0xF) ∧
    get_pressure (MS5611 (fun _ => 0) 20000000 (transport_of bad_crc_cal)) 8569150 9085466
      = some (2007, 100009) :=
  ⟨fun h => bad_crc_loaded ((MS5611_ready_iff _ _ _).1 h).2.2.2.2.2, bad_crc_loaded,
    bad_crc_get_pressure⟩

/-- C9 (amended): the CRC gate is the constructor, not `get_pressure`.
A calibration set that fails the CRC check in the constructor leaves the
session not ready; a session built by the constructor holds, while it is ready
and no call has stored into `_c`, exactly the loaded words, and they pass the
check; on a not-ready session `_start_convert`, `read_adc` and `_do_convert`
return false, hand no message to `ioctl` and leave `data` as it was.
`get_pressure` itself tests neither `_fd` nor the CRC: its result depends on
the words 1..6 only, and on in-range inputs it returns false exactly when
`TEMP` is outside `[-4000, 8500]`. -/
theorem crc_gate_is_in_constructor (c0 : Nat → Nat) (spi_clk : Nat) (t : Transport)
    (calls : List Call) (m n : Session) (cmd data raw_temp raw_pres : Nat)
    (io : ioctl_reply) :
    ((_crc4 ⟨t.open_ret, loaded_cal c0 t⟩).1 ≠ (loaded_cal c0 t 7 &&& 0xF) →
      ¬ ready (MS5611 c0 spi_clk t)) ∧
    ((∀ c ∈ calls, c.writes_cal = false) →
      ready (calls.foldl Call.run (MS5611 c0 spi_clk t)) →
      (calls.foldl Call.run (MS5611 c0 spi_clk t))._c = loaded_cal c0 t ∧
      (_crc4 (calls.foldl Call.run (MS5611 c0 spi_clk t))).1 =
        ((calls.foldl Call.run (MS5611 c0 spi_clk t))._c 7 &&& 0xF)) ∧
    (¬ ready m →
      ((_start_convert m cmd io).ret = false ∧ (_start_convert m cmd io).bus = []) ∧
      ((read_adc m data io).ret = false ∧ (read_adc m data io).bus = [] ∧
        (read_adc m data io).data = data) ∧
      ((_do_convert m cmd data io).ret = false ∧ (_do_convert m cmd data io).bus = [] ∧
        (_do_convert m cmd data io).data = data)) ∧
    ((∀ i, 1 ≤ i → i ≤ 6 → n._c i = m._c i) →
      get_pressure n raw_temp raw_pres = get_pressure m raw_temp raw_pres) ∧
    (InRange m raw_temp raw_pres →
      (get_pressure m raw_temp raw_pres = none ↔
        (spec_TEMP m._c raw_temp < -4000 ∨ spec_TEMP m._c raw_temp > 8500))) :=
  ⟨fun hc hr => hc ((MS5611_ready_iff c0 spi_clk t).1 hr).2.2.2.2.2,
    fun hc hr => ready_session_cal_checked c0 spi_clk t calls hc hr,
    fun hn => not_ready_bus_ops m hn cmd data io,
    fun h => get_pressure_words m n raw_temp raw_pres h,
    fun h => get_pressure_none_iff h⟩

/-- Witness for C9 (amended).  Over a transport that delivers a valid set the
session is ready after a conversion and a compensation call and still holds
the loaded, CRC-valid words; the session `⟨-1, bad_crc_cal⟩` is not ready,
`_do_convert` on it fails without bus traffic, and `get_pressure` on it gives
what it gives on the ready session with the datasheet words, and not false. -/
theorem crc_gate_is_in_constructor_witness :
    ((sample_calls.foldl Call.run
          (MS5611 (fun _ => 0) 20000000 (transport_of an520_cal)))._c =
        loaded_cal (fun _ => 0) (transport_of an520_cal) ∧
      (_crc4 (sample_calls.foldl Call.run
          (MS5611 (fun _ => 0) 20000000 (transport_of an520_cal)))).1 =
        ((sample_calls.foldl Call.run
          (MS5611 (fun _ => 0) 20000000 (transport_of an520_cal)))._c 7 &&& 0xF)) ∧
    ((_do_convert ⟨-1, bad_crc_cal⟩ 0x58 7 ⟨0, [1, 2, 3]⟩).ret = false ∧
      (_do_convert ⟨-1, bad_crc_cal⟩ 0x58 7 ⟨0, [1, 2, 3]⟩).bus = [] ∧
      (_do_convert ⟨-1, bad_crc_cal⟩ 0x58 7 ⟨0, [1, 2, 3]⟩).data = 7) ∧
    get_pressure ⟨3, datasheet_cal⟩ 8569150 9085466 =
      get_pressure ⟨-1, bad_crc_cal⟩ 8569150 9085466 ∧
    get_pressure ⟨-1, bad_crc_cal⟩ 8569150 9085466 ≠ none :=
  have h := crc_gate_is_in_constructor (fun _ => 0) 20000000 (transport_of an520_cal)
    sample_calls ⟨-1, bad_crc_cal⟩ ⟨3, datasheet_cal⟩ 0x58 7 8569150 9085466 ⟨0, [1, 2, 3]⟩
  ⟨h.2.1 sample_calls_keep_cal an520_session_ready_after_calls,
    (h.2.2.1 (by decide)).2.2,
    h.2.2.2.1 bad_crc_cal_words,
    fun hn => bad_crc_cal_temp ((h.2.2.2.2 bad_crc_cal_in_range).1 hn)⟩

/-! ## Settle delay of `_do_convert` -/

theorem _do_convert_bus (m : Session) (cmd data : Nat) (io : ioctl_reply) (hr : ready m)
    (hc : cmd_invalid cmd = false) :
    (_do_convert m cmd data io).bus =
      [convert_message cmd (uint16_t (_do_convert_usec_delay cmd))] := by
  have hfd : ¬ m._fd < 0 := not_lt.mpr hr
  unfold _do_convert convert_message
  simp only [hfd, hc, if_false, Bool.false_eq_true]
  split_ifs <;> rfl

theorem osr_cmd_facts (o : Osr) :
    (cmd_invalid (TEMP ||| o.val) = false ∧ cmd_invalid (PRES ||| o.val) = false) ∧
    (TEMP ||| o.val ∈ convert_cmds ∧ PRES ||| o.val ∈ convert_cmds) ∧
    (uint16_t (_do_convert_usec_delay (TEMP ||| o.val)) = 600 * 2 ^ o.index ∧
      uint16_t (_do_convert_usec_delay (PRES ||| o.val)) = 600 * 2 ^ o.index) ∧
    (_do_convert_usec_delay (TEMP ||| o.val) = 600 * 2 ^ o.index ∧
      _do_convert_usec_delay (PRES ||| o.val) = 600 * 2 ^ o.index) ∧
    600 * 2 ^ o.index ≤ 9600 := by
  cases o <;> decide

/-- C11: on a ready session, for each oversampling level (index `k` in 0..4)
the message that `_do_convert` hands to `ioctl` carries the delay `600 * 2^k`
microseconds after the trigger byte, for the temperature command and for the
pressure command alike; the five delays are 600, 1200, 2400, 4800, 9600, none
above 9600, and these commands are the ten accepted ones. -/
theorem do_convert_settle_delay (m : Session) (o : Osr) (data : Nat) (io : ioctl_reply)
    (hr : ready m) :
    (_do_convert m (TEMP ||| o.val) data io).bus =
        [convert_message (TEMP ||| o.val) (600 * 2 ^ o.index)] ∧
    (_do_convert m (PRES ||| o.val) data io).bus =
        [convert_message (PRES ||| o.val) (600 * 2 ^ o.index)] ∧
    (_do_convert_usec_delay (TEMP ||| o.val) = 600 * 2 ^ o.index ∧
      _do_convert_usec_delay (PRES ||| o.val) = 600 * 2 ^ o.index) ∧
    (600 * 2 ^ o.index ≤ 9600 ∧ 9600 < 2 ^ 16) ∧
    Osr.all.map (fun l => 600 * 2 ^ l.index) = [600, 1200, 2400, 4800, 9600] ∧
    convert_cmds =
      Osr.all.map (fun l => TEMP ||| l.val) ++ Osr.all.map (fun l => PRES ||| l.val) := by
  have h := osr_cmd_facts o
  refine ⟨?_, ?_, h.2.2.2.1, ⟨h.2.2.2.2, by norm_num⟩, by decide, by decide⟩
  · rw [_do_convert_bus m _ data io hr h.1.1, h.2.2.1.1]
  · rw [_do_convert_bus m _ data io hr h.1.2, h.2.2.1.2]

/-- Witness for C11: the highest oversampling level on a ready session; the
public calls `do_convert_temp` and `do_convert_pres` issue these messages. -/
theorem do_convert_settle_delay_witness :
    ready ⟨3, datasheet_cal⟩ ∧
      (do_convert_temp ⟨3, datasheet_cal⟩ 0 .OSR4096 ⟨0, [1, 2, 3]⟩).bus =
        [convert_message 0x48 9600] ∧
      (do_convert_pres ⟨3, datasheet_cal⟩ 0 .OSR4096 ⟨0, [1, 2, 3]⟩).bus =
        [convert_message 0x58 9600] :=
  have h := do_convert_settle_delay ⟨3, datasheet_cal⟩ .OSR4096 0 ⟨0, [1, 2, 3]⟩ (by decide)
  ⟨by decide, h.1, h.2.1⟩

/-! ## Overflow in `get_pressure` -/

/-- C12 (evaluation of the code at the failing input): with the datasheet
calibration and `raw_temp = 7381617` the second-order branch is taken with
`dT = -1185167`; the product `dT * dT = 1404620817889` is above `INT_MAX`, so
its 32-bit evaluation differs from it, `1 << 31` is not `2^31` in 32-bit `int`
either, and the temperature returned (-2000) is not the exact `TEMP - T2`
(-2654). -/
theorem get_pressure_int_overflow :
    InRange ⟨3, datasheet_cal⟩ 7381617 9085466 ∧
      get_pressure_dT ⟨3, datasheet_cal⟩ 7381617 = -1185167 ∧
      get_pressure_temp ⟨3, datasheet_cal⟩ 7381617 - 2000 < 0 ∧
      (-1185167 : Int) * (-1185167) = 1404620817889 ∧
      (2147483647 : Int) < (-1185167) * (-1185167) ∧
      int32_t ((-1185167) * (-1185167)) ≠ (-1185167) * (-1185167) ∧
      int_shl 1 31 ≠ 2 ^ 31 ∧
      (get_pressure ⟨3, datasheet_cal⟩ 7381617 9085466).map Prod.fst ≠
        some (spec_TEMP datasheet_cal 7381617 - spec_T2 datasheet_cal 7381617) ∧
      spec_TEMP datasheet_cal 7381617 - spec_T2 datasheet_cal 7381617 = -2654 :=
  ⟨datasheet_cal_in_range 3 _ _ (by norm_num) (by norm_num), by decide, by decide,
    by decide, by decide, by decide, by decide, by decide, by decide⟩

/-! ## `_crc4` against the manufacturer CRC-4 -/

theorem spec_crc4_shift_lt (r : Nat) : spec_crc4_shift r < 65536 := by
  unfold spec_crc4_shift
  have h : 2 * r % 65536 < 2 ^ 16 := Nat.mod_lt _ (by norm_num)
  split_ifs
  · exact Nat.xor_lt_two_pow h (by norm_num)
  · exact h

theorem spec_crc4_shift_uint16 (r : Nat) : spec_crc4_shift (uint16_t r) = spec_crc4_shift r := by
  unfold spec_crc4_shift uint16_t
  have h1 : r % 65536 / 32768 % 2 = r / 32768 % 2 := by omega
  have h2 : 2 * (r % 65536) % 65536 = 2 * r % 65536 := by omega
  rw [h1, h2]

/-- The inner step of the code and the shift of the specification agree. -/
theorem _crc4_bit_eq_spec (r : Nat) : _crc4_bit r = spec_crc4_shift r := by
  rw [_crc4_bit_eq]
  unfold spec_crc4_shift
  have ht : (r.testBit 15 = true) ↔ r / 32768 % 2 = 1 := by
    rw [Nat.testBit_to_div_mod]
    simp
  have hs : uint16_t (r <<< 1) = 2 * r % 65536 := by
    rw [Nat.shiftLeft_eq]; unfold uint16_t; omega
  have hk : uint16_t 0x3000 = 0x3000 := by decide
  by_cases h : r.testBit 15 = true
  · rw [if_pos h, if_pos (ht.1 h), uint16_t_xor, hs, hk]
  · rw [if_neg h, if_neg (fun hc => h (ht.2 hc)), Nat.xor_zero, hs]

theorem iterate_spec_shift_uint16 (n r : Nat) :
    Nat.iterate spec_crc4_shift (n + 1) (uint16_t r) = Nat.iterate spec_crc4_shift (n + 1) r := by
  rw [Function.iterate_succ_apply, Function.iterate_succ_apply, spec_crc4_shift_uint16]

theorem iterate_crc4_bit_eq_spec (n r : Nat) :
    Nat.iterate _crc4_bit n r = Nat.iterate spec_crc4_shift n r := by
  have h : _crc4_bit = spec_crc4_shift := funext _crc4_bit_eq_spec
  rw [h]

/-- One pass of the `byte` loop is one step of the specification on the byte
selected by the loop index. -/
theorem _crc4_byte_eq_spec (c : Nat → Nat) (r byte : Nat) :
    _crc4_byte c r byte =
      spec_crc4_step r (if byte % 2 = 1 then c (byte / 2) % 256 else c (byte / 2) / 256) := by
  have e1 : byte >>> 1 = byte / 2 := by rw [Nat.shiftRight_eq_div_pow]
  have e2 : ∀ x : Nat, x &&& 0x00ff = x % 256 := fun x =>
    Nat.and_pow_two_sub_one_eq_mod x 8
  have e3 : ∀ x : Nat, x >>> 8 = x / 256 := fun x => by
    rw [Nat.shiftRight_eq_div_pow]
  unfold _crc4_byte spec_crc4_step
  simp only [e1, e2, e3, iterate_crc4_bit_eq_spec]
  split_ifs
  · exact iterate_spec_shift_uint16 7 _
  · exact iterate_spec_shift_uint16 7 _

theorem spec_crc4_step_lt (r x : Nat) : spec_crc4_step r x < 65536 := by
  unfold spec_crc4_step
  rw [Function.iterate_succ_apply']
  exact spec_crc4_shift_lt _

/-- The loop of `_crc4` over the indices 0..15 is the fold of the
specification over the sixteen bytes. -/
theorem _crc4_loop_eq_spec (c : Nat → Nat) :
    (List.range 16).foldl (_crc4_byte c) 0 = (spec_crc4_bytes c).foldl spec_crc4_step 0 := by
  have hr : List.range 16 = [0, 1, 2, 3, 4, 5, 6, 7, 8, 9, 10, 11, 12, 13, 14, 15] := by
    decide
  have hb : spec_crc4_bytes c =
      [c 0 / 256, c 0 % 256, c 1 / 256, c 1 % 256, c 2 / 256, c 2 % 256, c 3 / 256,
        c 3 % 256, c 4 / 256, c 4 % 256, c 5 / 256, c 5 % 256, c 6 / 256, c 6 % 256,
        c 7 / 256, c 7 % 256] := by
    have h8 : List.range 8 = [0, 1, 2, 3, 4, 5, 6, 7] := by decide
    unfold spec_crc4_bytes
    rw [h8]
    rfl
  rw [hr, hb]
  simp only [List.foldl_cons, List.foldl_nil, _crc4_byte_eq_spec]
  norm_num

/-- The code computes the manufacturer CRC-4 of the words with the low byte of
word 7 zeroed. -/
theorem _crc4_eq_spec (m : Session) :
    (_crc4 m).1 = spec_crc4 (Function.update m._c 7 (m._c 7 &&& 0xFF00)) := by
  have hm : uint16_t (m._c 7 &&& 0xff00) = m._c 7 &&& 0xFF00 := by
    have h := Nat.and_le_right (n := m._c 7) (m := 0xff00)
    unfold uint16_t
    omega
  unfold _crc4 spec_crc4
  simp only [hm, _crc4_loop_eq_spec]
  have hlt : (spec_crc4_bytes (Function.update m._c 7 (m._c 7 &&& 0xFF00))).foldl
      spec_crc4_step 0 < 65536 := by
    have hb : ∀ (l : List Nat) (r : Nat), r < 65536 → l.foldl spec_crc4_step r < 65536 := by
      intro l
      induction l with
      | nil => intro r hr; exact hr
      | cons x l ih => intro r _; exact ih _ (spec_crc4_step_lt r x)
    exact hb _ 0 (by norm_num)
  rw [Nat.shiftRight_eq_div_pow]
  unfold uint8_t
  omega

theorem mask_high_bit (b : Nat) (h8 : 8 ≤ b) (h16 : b < 16) :
    uint16_t ((1 <<< b) &&& 0xff00) = 1 <<< b := by
  interval_cases b <;> decide

theorem mask_low_bit (b : Nat) (h8 : b < 8) : (1 <<< b) &&& 0xff00 = 0 := by
  interval_cases b <;> decide

/-- Flipping one of the bits 8..15 of word 7 changes `_crc4` by the syndrome of
that bit. -/
theorem _crc4_flip_word7_high (m : Session) (b : Nat) (h8 : 8 ≤ b) (h16 : b < 16) :
    (_crc4 ⟨m._fd, flip_bit m._c 7 b⟩).1 = (_crc4 m).1 ^^^ syndrome 7 b := by
  have hmask : Function.update (flip_bit m._c 7 b) 7
        (uint16_t (flip_bit m._c 7 b 7 &&& 0xff00))
      = fun i => Function.update m._c 7 (uint16_t (m._c 7 &&& 0xff00)) i
          ^^^ bit_error 7 b i := by
    funext i
    by_cases h7 : i = 7
    · subst h7
      simp only [flip_bit, bit_error, Function.update_same, if_true]
      rw [Nat.and_xor_distrib_right, uint16_t_xor, mask_high_bit b h8 h16]
    · simp [flip_bit, bit_error, Function.update, h7]
  have hf := _crc4_fold_xor (Function.update m._c 7 (uint16_t (m._c 7 &&& 0xff00)))
    (bit_error 7 b) (List.range 16) 0 0
  rw [Nat.xor_zero] at hf
  simp only [_crc4, syndrome, hmask, hf, shiftRight_xor, uint8_t_xor]

/-- Flipping one of the bits 0..7 of word 7 leaves `_crc4` as it was. -/
theorem _crc4_flip_word7_low (m : Session) (b : Nat) (h8 : b < 8) :
    (_crc4 ⟨m._fd, flip_bit m._c 7 b⟩).1 = (_crc4 m).1 := by
  have hmask : Function.update (flip_bit m._c 7 b) 7
        (uint16_t (flip_bit m._c 7 b 7 &&& 0xff00))
      = Function.update m._c 7 (uint16_t (m._c 7 &&& 0xff00)) := by
    have hv : flip_bit m._c 7 b 7 &&& 0xff00 = m._c 7 &&& 0xff00 := by
      simp only [flip_bit, Function.update_same]
      rw [Nat.and_xor_distrib_right, mask_low_bit b h8, Nat.xor_zero]
    rw [hv]
    unfold flip_bit
    rw [Function.update_idem]
  simp only [_crc4, hmask]

set_option maxRecDepth 100000 in
theorem syndrome_word7_ne_zero : ∀ b, 8 ≤ b → b < 16 → syndrome 7 b ≠ 0 := by
  decide

set_option maxRecDepth 100000 in
theorem bit4_cal_crc :
    (_crc4 ⟨3, bit4_cal⟩).1 = 0 ∧
      spec_crc4 (Function.update bit4_cal 7 (bit4_cal 7 &&& 0xFFF0)) = 1 := by
  decide

/-! ## Claim about what `_crc4` covers -/

/-- C13 (counterexample): on the set whose only set bit is bit 4 of word 7,
`_crc4` returns 0 while the CRC-4 of the words with only the low nibble of
word 7 zeroed is 1. -/
theorem crc4_not_low_nibble_masked :
    (_crc4 ⟨3, bit4_cal⟩).1 ≠
      spec_crc4 (Function.update bit4_cal 7 (bit4_cal 7 &&& 0xFFF0)) := by
  rw [bit4_cal_crc.1, bit4_cal_crc.2]
  decide

/-- C13 (amended): `_crc4` is the manufacturer CRC-4 of the eight words with
the low byte of word 7 zeroed (`c[7] & 0xFF00`): bits 8..15 of word 7 are
covered by the check, bits 0..7 are not. -/
theorem crc4_is_manufacturer_crc_low_byte_masked (m : Session) (b : Nat) :
    (_crc4 m).1 = spec_crc4 (Function.update m._c 7 (m._c 7 &&& 0xFF00)) ∧
    (8 ≤ b → b < 16 → (_crc4 ⟨m._fd, flip_bit m._c 7 b⟩).1 ≠ (_crc4 m).1) ∧
    (b < 8 → (_crc4 ⟨m._fd, flip_bit m._c 7 b⟩).1 = (_crc4 m).1) := by
  refine ⟨_crc4_eq_spec m, fun h8 h16 => ?_, fun h8 => _crc4_flip_word7_low m b h8⟩
  rw [_crc4_flip_word7_high m b h8 h16]
  intro h
  have h2 : syndrome 7 b = (_crc4 m).1 ^^^ ((_crc4 m).1 ^^^ syndrome 7 b) :=
    (Nat.xor_cancel_left _ _).symm
  rw [h, Nat.xor_self] at h2
  exact syndrome_word7_ne_zero b h8 h16 h2

/-- Witness for C13 (amended): on the AN520 example words `_crc4` is the
CRC-4 with the low byte of word 7 zeroed, flipping bit 8 of word 7 changes it
and flipping bit 4 of word 7 does not. -/
theorem crc4_is_manufacturer_crc_low_byte_masked_witness :
    (_crc4 ⟨3, an520_cal⟩).1 =
        spec_crc4 (Function.update an520_cal 7 (an520_cal 7 &&& 0xFF00)) ∧
      (_crc4 ⟨3, flip_bit an520_cal 7 8⟩).1 ≠ (_crc4 ⟨3, an520_cal⟩).1 ∧
      (_crc4 ⟨3, flip_bit an520_cal 7 4⟩).1 = (_crc4 ⟨3, an520_cal⟩).1 :=
  ⟨(crc4_is_manufacturer_crc_low_byte_masked ⟨3, an520_cal⟩ 0).1,
    (crc4_is_manufacturer_crc_low_byte_masked ⟨3, an520_cal⟩ 8).2.1 (by decide) (by decide),
    (crc4_is_manufacturer_crc_low_byte_masked ⟨3, an520_cal⟩ 4).2.2 (by decide)⟩

end MS5611

